import Mathlib

/-
Verification of the MassMechanic voice-agent dialogue engine.

The definitions below are a shallow embedding of the JavaScript source:
pure helper functions (phone normalisation, keyword matchers, slot
extractors) become Lean functions on `List Char` / `String`; the per-call
mutable session state becomes the structure `DState` and the body of
`drainPendingFinal` becomes the transition function `stepSession`, which
returns the successor state together with the list of observable actions
(spoken lines, database writes, the lead-creation call, the live
transfer).  The transcript-debouncing layer of the websocket handler is
embedded separately as `PState`/`pOnFinal` (current variant) and
`SV.SState`/`SV.svOnMessage` (the `server.js` variant with barge-in).

JavaScript regular expressions are translated by hand into explicit
scanning functions; `\s` is modelled as ASCII whitespace, `\w` as
`[A-Za-z0-9_]`, and the `/i` flag as comparison after `Char.toLower`.
-/

namespace MM

/-- Apostrophe character, used to build the literal keyword phrases of the
source that contain one. -/
def aposC : Char := Char.ofNat 39

/-- ASCII whitespace, modelling the JavaScript `\s` character class. -/
def isSpaceC (c : Char) : Bool :=
  c = ' ' || c = Char.ofNat 9 || c = Char.ofNat 10 || c = Char.ofNat 13 ||
  c = Char.ofNat 11 || c = Char.ofNat 12

/-- Word character, modelling the JavaScript `\w` class `[A-Za-z0-9_]`. -/
def isWordC (c : Char) : Bool :=
  c.isAlpha || c.isDigit || c = '_'

/-- Case-insensitive character comparison, modelling the `/i` regex flag. -/
def lowerEq (a b : Char) : Bool :=
  a.toLower = b.toLower

/-- Case-insensitive test that `p` occurs at the front of `l`. -/
def leadsWithIns : List Char → List Char → Bool
  | [], _ => true
  | _ :: _, [] => false
  | p :: ps, c :: cs => lowerEq p c && leadsWithIns ps cs

/-- Case-insensitive substring test, modelling `/pat/i.test(hay)`. -/
def containsIns : List Char → List Char → Bool
  | hay, pat =>
    leadsWithIns pat hay ||
      match hay with
      | [] => false
      | _ :: t => containsIns t pat

/-- Word-boundary test at the front of a remainder: end of input or a
non-word character, modelling `\b` after a word character. -/
def boundaryAt : List Char → Bool
  | [] => true
  | c :: _ => !isWordC c

/-- Case-insensitive test that the word `w` occurs at the front of `l`
followed by a word boundary, modelling `^w\b` with `/i`. -/
def frontWordIns (l w : List Char) : Bool :=
  leadsWithIns w l && boundaryAt (l.drop w.length)

/-- Trim ASCII whitespace from both ends, modelling `String#trim`. -/
def trimChars (l : List Char) : List Char :=
  ((l.dropWhile isSpaceC).reverse.dropWhile isSpaceC).reverse

/-- Digit characters of a string, modelling `replace(/\D/g, "")`. -/
def digitsOf (l : List Char) : List Char :=
  l.filter Char.isDigit

/-- Embedding of `normalizePhone` (src/server.js:12-18, identical in the
current variant): keep only digits; prefix `1` to a 10-digit number; keep
an 11-digit number that already starts with `1`; otherwise return the
digits unchanged. -/
def normalizePhoneL (l : List Char) : List Char :=
  if digitsOf l = [] then []
  else if (digitsOf l).length = 10 then '1' :: digitsOf l
  else if (digitsOf l).length = 11 ∧ (digitsOf l).head? = some '1' then digitsOf l
  else digitsOf l

/-- String-level wrapper for `normalizePhoneL`. -/
def normalizePhone (s : String) : String :=
  ⟨normalizePhoneL s.data⟩

theorem digitsOf_sub (l : List Char) : ∀ c ∈ digitsOf l, c.isDigit := by
  intro c hc
  exact List.of_mem_filter hc

theorem digitsOf_all (l : List Char) (h : ∀ c ∈ l, c.isDigit) :
    digitsOf l = l :=
  List.filter_eq_self.mpr h

theorem digitsOf_digitsOf (l : List Char) :
    digitsOf (digitsOf l) = digitsOf l :=
  digitsOf_all _ (digitsOf_sub l)

theorem normalizePhoneL_digits (l : List Char) :
    ∀ c ∈ normalizePhoneL l, c.isDigit := by
  intro c hc
  unfold normalizePhoneL at hc
  split_ifs at hc with h0 h10 h11
  · simp at hc
  · rcases List.mem_cons.mp hc with h1 | h2
    · simp [h1]
    · exact digitsOf_sub l _ h2
  · exact digitsOf_sub l _ hc
  · exact digitsOf_sub l _ hc

theorem normalizePhoneL_idem (l : List Char) :
    normalizePhoneL (normalizePhoneL l) = normalizePhoneL l := by
  have hfix : digitsOf (normalizePhoneL l) = normalizePhoneL l :=
    digitsOf_all _ (normalizePhoneL_digits l)
  by_cases h0 : digitsOf l = []
  · have hout : normalizePhoneL l = [] := by
      unfold normalizePhoneL
      simp [h0]
    rw [hout]
    unfold normalizePhoneL
    simp [digitsOf]
  · by_cases h10 : (digitsOf l).length = 10
    · have hout : normalizePhoneL l = '1' :: digitsOf l := by
        unfold normalizePhoneL
        simp [h0, h10]
      rw [hout] at hfix ⊢
      unfold normalizePhoneL
      rw [hfix]
      simp [h10]
    · by_cases h11 : (digitsOf l).length = 11 ∧ (digitsOf l).head? = some '1'
      · have hout : normalizePhoneL l = digitsOf l := by
          unfold normalizePhoneL
          simp [h0, h10, h11.1, h11.2]
        rw [hout] at hfix ⊢
        unfold normalizePhoneL
        rw [hfix]
        simp [h0, h10, h11.1, h11.2]
      · have hout : normalizePhoneL l = digitsOf l := by
          unfold normalizePhoneL
          rw [if_neg h0, if_neg h10, if_neg h11]
        rw [hout] at hfix ⊢
        unfold normalizePhoneL
        rw [hfix, if_neg h0, if_neg h10, if_neg h11]

/-- Lowercased copy of a character list. -/
def lowerL (l : List Char) : List Char :=
  l.map Char.toLower

/-- Case-insensitive equality of character lists, modelling a full-string
match of `/^w$/i`. -/
def eqIns (a b : List Char) : Bool :=
  lowerL a = lowerL b

/-- Vocabulary of `wantsHumanFromText` (part_006 line 21). -/
def wantsHumanPats : List (List Char) :=
  ["operator", "representative", "human", "real person", "agent",
   "someone", "talk to a person", "call me"].map String.data

/-- Embedding of `wantsHumanFromText`: the escalation regex is a plain
case-insensitive substring alternation. -/
def wantsHumanFromText (t : String) : Bool :=
  wantsHumanPats.any (containsIns t.data)

/-- Affirmative alternations of `looksLikeYes` (part_006 line 25). -/
def yesWords : List (List Char) :=
  ["yes".data, "yeah".data, "yep".data, "yup".data, "correct".data,
   "right".data, "that".data ++ aposC :: "s right".data,
   "thats right".data, "affirmative".data, "sure".data, "ok".data,
   "okay".data, "mhm".data, "uh huh".data]

/-- Embedding of `looksLikeYes`: one of the affirmative words at the start
of the trimmed utterance, followed by a word boundary. -/
def looksLikeYes (t : String) : Bool :=
  yesWords.any (frontWordIns (trimChars t.data))

/-- Negative alternations of `looksLikeNo` (part_006 line 29). -/
def noWords : List (List Char) :=
  ["no", "nope", "not really", "nah", "wrong", "incorrect"].map String.data

/-- Embedding of `looksLikeNo`. -/
def looksLikeNo (t : String) : Bool :=
  noWords.any (frontWordIns (trimChars t.data))

/-- Take exactly `n` digit characters from the front, returning them and
the remainder. -/
def takeDigits : Nat → List Char → Option (List Char × List Char)
  | 0, l => some ([], l)
  | _ + 1, [] => none
  | n + 1, c :: cs =>
    if c.isDigit then (takeDigits n cs).map (fun p => (c :: p.1, p.2))
    else none

/-- Scan a string left to right, trying the position matcher `f` at every
position whose preceding character is a non-word character (or the start),
modelling a regex that opens with `\b` before a word character; returns
the first (leftmost) match. -/
def scanFirst (f : List Char → Option (List Char)) :
    Bool → List Char → Option (List Char)
  | prevOk, [] => if prevOk then f [] else none
  | prevOk, c :: cs =>
    match (if prevOk then f (c :: cs) else none) with
    | some r => some r
    | none => scanFirst f (!isWordC c) cs

/-- Scan a string left to right trying `f` at every position (no leading
boundary requirement), returning the leftmost match. -/
def scanAny (f : List Char → Option (List Char)) : List Char → Option (List Char)
  | [] => f []
  | c :: cs =>
    match f (c :: cs) with
    | some r => some r
    | none => scanAny f cs

/-- Position matcher for `\b(\d{5})(?:-\d{4})?\b` at the current position
(the leading boundary is handled by `scanFirst`): five digits, then
greedily an optional `-dddd` suffix, then a word boundary. -/
def zipAt (l : List Char) : Option (List Char) :=
  match takeDigits 5 l with
  | none => none
  | some (d, rest) =>
    match rest with
    | '-' :: r2 =>
      match takeDigits 4 r2 with
      | some (_, r3) =>
        if boundaryAt r3 then some d
        else if boundaryAt rest then some d
        else none
      | none => if boundaryAt rest then some d else none
    | _ => if boundaryAt rest then some d else none

/-- Embedding of `extractZip` (part_006 lines 32-35). -/
def extractZip (t : String) : String :=
  match scanFirst zipAt true t.data with
  | some d => ⟨d⟩
  | none => ""

/-- Test for the year alternation `(19\d{2}|20[0-2]\d)`. -/
def yearDigits (c1 c2 c3 c4 : Char) : Bool :=
  (c1 = '1' && c2 = '9' && c3.isDigit && c4.isDigit) ||
  (c1 = '2' && c2 = '0' && (c3 = '0' || c3 = '1' || c3 = '2') && c4.isDigit)

/-- Position matcher for `\b(19\d{2}|20[0-2]\d)\b`. -/
def yearAt : List Char → Option (List Char)
  | c1 :: c2 :: c3 :: c4 :: rest =>
    if yearDigits c1 c2 c3 c4 && boundaryAt rest then some [c1, c2, c3, c4]
    else none
  | _ => none

/-- Embedding of `extractCarYear` (part_006 lines 87-90). -/
def extractCarYear (t : String) : String :=
  match scanFirst yearAt true t.data with
  | some d => ⟨d⟩
  | none => ""

/-- Vehicle-problem vocabulary that disables name extraction
(part_006 line 42). -/
def nameVocabPats : List (List Char) :=
  ["leak", "leaking", "pull", "pulling", "brake", "braking", "start",
   "starting", "overheat", "check", "engine", "noise", "rattle", "clunk",
   "grind", "grinding", "squeal", "shake", "vibration", "smoke", "stall",
   "idle", "rough", "slip", "slipping", "shift", "puddle",
   "under"].map String.data

/-- Self-introduction lead-ins of the name regex (part_006 line 48), in
the alternation order of the source; `it'?s` contributes two entries. -/
def introPrefixes : List (List Char) :=
  ["my name is".data, "my name".data ++ aposC :: "s".data, "this is".data,
   "i".data ++ aposC :: "m".data, "im".data, "i am".data,
   "it".data ++ aposC :: "s".data, "its".data, "call me".data,
   "they call me".data]

/-- After a matched lead-in: `\s+([a-z]{2,}(?:\s+[a-z]+)?)\b` with greedy
runs; if the optional second word cannot be closed by a word boundary the
capture falls back to the first word alone, exactly as regex backtracking
does (shorter letter runs always fail the boundary, so maximal runs plus
this one fallback are complete). -/
def parseAfter (rest : List Char) : Option (List Char) :=
  let s1 := rest.span isSpaceC
  if s1.1 = [] then none
  else
    let s2 := s1.2.span Char.isAlpha
    if s2.1.length < 2 then none
    else
      let s3 := s2.2.span isSpaceC
      let s4 := s3.2.span Char.isAlpha
      if s3.1 ≠ [] ∧ s4.1 ≠ [] ∧ boundaryAt s4.2 then
        some (s2.1 ++ s3.1 ++ s4.1)
      else if boundaryAt s2.2 then some s2.1
      else none

/-- Try each lead-in alternative in order at the current position. -/
def tryPrefixes : List (List Char) → List Char → Option (List Char)
  | [], _ => none
  | p :: ps, l =>
    if leadsWithIns p l then
      match parseAfter (l.drop p.length) with
      | some cap => some cap
      | none => tryPrefixes ps l
    else tryPrefixes ps l

/-- Leftmost match of the self-introduction pattern over the utterance. -/
def findIntro (l : List Char) : Option (List Char) :=
  scanAny (tryPrefixes introPrefixes) l

/-- False-positive words rejected after a self-introduction capture
(part_006 line 56). -/
def introFalsePos : List (List Char) :=
  ["the", "that", "this", "there", "here", "what", "when", "where", "how",
   "why", "my", "hi", "hello", "leak", "leaking", "pull",
   "pulling"].map String.data

/-- Stop-word list of the bare-token fallback (part_006 lines 71 and 79).
The source's `don't` entry keeps its apostrophe even though cleaned
tokens can never contain one. -/
def nameStop : List (List Char) :=
  ["the".data, "that".data, "this".data, "there".data, "here".data,
   "what".data, "when".data, "where".data, "how".data, "why".data,
   "yes".data, "yeah".data, "yep".data, "nope".data, "okay".data,
   "sure".data, "right".data, "wrong".data, "maybe".data, "think".data,
   "know".data, "well".data, "just".data, "like".data, "want".data,
   "need".data, "have".data, "cant".data,
   "don".data ++ aposC :: "t".data, "wont".data, "hi".data, "hello".data,
   "hey".data, "leak".data, "leaking".data, "pull".data, "pulling".data,
   "brake".data, "start".data, "engine".data, "noise".data, "grind".data,
   "shake".data, "smoke".data, "code".data, "zip".data]

/-- Split on whitespace runs, dropping empty tokens, modelling
`trim().split(/\s+/)`. -/
def tokensAux : List Char → List Char → List (List Char)
  | [], acc => if acc = [] then [] else [acc.reverse]
  | c :: cs, acc =>
    if isSpaceC c then
      if acc = [] then tokensAux cs [] else acc.reverse :: tokensAux cs []
    else tokensAux cs (c :: acc)

/-- Whitespace tokens of a character list. -/
def tokensOf (l : List Char) : List (List Char) :=
  tokensAux l []

/-- Tokens of the letters-and-spaces cleanup of the utterance that are at
least two characters long (part_006 lines 64-65). -/
def nameTokens (original : List Char) : List (List Char) :=
  (tokensOf (original.filter (fun c => c.isAlpha || isSpaceC c))).filter
    (fun w => 2 ≤ w.length)

/-- Bare-token fallback of `extractName` (part_006 lines 62-82): a single
word, or the first of exactly two words, of 2-15 letters and not on the
stop-word list. -/
def bareName (original : List Char) : String :=
  match nameTokens original with
  | [w] =>
    if 2 ≤ w.length ∧ w.length ≤ 15 ∧ ¬(nameStop.any (eqIns w) = true) then
      ⟨w⟩
    else ""
  | [w, _] =>
    if 2 ≤ w.length ∧ w.length ≤ 15 ∧ ¬(nameStop.any (eqIns w) = true) then
      ⟨w⟩
    else ""
  | _ => ""

/-- Self-introduction capture of `extractName` after the false-positive
filter: `some` only when the regex matched and the trimmed capture is not
a listed false positive. -/
def introAccepted (original : List Char) : Option (List Char) :=
  match findIntro original with
  | some cap0 =>
    let cap := trimChars cap0
    if introFalsePos.any (eqIns cap) then none else some cap
  | none => none

/-- Embedding of `extractName` (part_006 lines 37-85): reject utterances
containing vehicle-problem vocabulary, otherwise prefer the
self-introduction capture, otherwise the bare-token fallback. -/
def extractName (t : String) : String :=
  let original := trimChars t.data
  if nameVocabPats.any (containsIns original) then ""
  else
    match introAccepted original with
    | some cap => ⟨cap⟩
    | none => bareName original

/-- One pass of `replace(/\s+/g, " ")`: each whitespace run becomes a
single space. -/
def collapseAux : Bool → List Char → List Char
  | _, [] => []
  | prevSp, c :: cs =>
    if isSpaceC c then
      if prevSp then collapseAux true cs else ' ' :: collapseAux true cs
    else c :: collapseAux false cs

/-- Collapse whitespace runs to single spaces. -/
def collapseSpaces (l : List Char) : List Char :=
  collapseAux false l

/-- Cleanup of `extractCarMakeModel` (part_006 lines 93-96): non-word,
non-space characters become spaces, whitespace runs collapse, ends
trimmed. -/
def carCleaned (t : String) : List Char :=
  trimChars (collapseSpaces (t.data.map
    (fun c => if isWordC c || isSpaceC c then c else ' ')))

/-- Symptom vocabulary that disables vehicle extraction
(part_006 line 102). -/
def carVocabPats : List (List Char) :=
  ["steering", "wheel", "pull", "pulling", "brake", "start", "overheat",
   "check", "engine", "noise", "rattle", "clunk", "grind", "squeal",
   "shake", "vibration", "leak", "leaking", "smoke", "stall", "idle",
   "rough", "slipping", "shift", "puddle"].map String.data

/-- Greeting words that disable vehicle extraction (part_006 line 107). -/
def carGreet : List (List Char) :=
  ["hi", "hello", "hey", "my", "me", "i", "the", "this", "that", "is",
   "it", "there"].map String.data

/-- Recognised car brands (part_006 line 117). -/
def carBrands : List (List Char) :=
  ["toyota", "honda", "ford", "chevy", "chevrolet", "gmc", "dodge", "ram",
   "jeep", "nissan", "mazda", "subaru", "hyundai", "kia", "volkswagen",
   "vw", "bmw", "mercedes", "audi", "lexus", "acura", "infiniti",
   "cadillac", "buick", "lincoln", "volvo", "tesla",
   "porsche"].map String.data

/-- First word of `ws` matching at the current position up to a word
boundary. -/
def wordAt : List (List Char) → List Char → Option (List Char)
  | [], _ => none
  | w :: ws, l =>
    if leadsWithIns w l && boundaryAt (l.drop w.length) then some w
    else wordAt ws l

/-- Test for `\b(w1|w2|...)\b` anywhere in the string. -/
def containsWordIns (l : List Char) (ws : List (List Char)) : Bool :=
  (scanFirst (wordAt ws) true l).isSome

/-- Position matcher for
`\b(19\d{2}|20[0-2]\d)\s+([A-Za-z]+)\s+([A-Za-z0-9]+)\b`, returning
`m1[2] ++ " " ++ m1[3]` as built by the source's template literal. -/
def m1At : List Char → Option (List Char)
  | c1 :: c2 :: c3 :: c4 :: rest =>
    if yearDigits c1 c2 c3 c4 then
      let s1 := rest.span isSpaceC
      let s2 := s1.2.span Char.isAlpha
      let s3 := s2.2.span isSpaceC
      let s4 := s3.2.span (fun c => c.isAlpha || c.isDigit)
      if s1.1 ≠ [] ∧ s2.1 ≠ [] ∧ s3.1 ≠ [] ∧ s4.1 ≠ [] ∧ boundaryAt s4.2
      then some (s2.1 ++ ' ' :: s4.1)
      else none
    else none
  | _ => none

/-- Position matcher for `\b([A-Za-z]+)\s+([A-Za-z0-9]+)\b`, returning
`m2[1] ++ " " ++ m2[2]`. -/
def m2At (l : List Char) : Option (List Char) :=
  let s1 := l.span Char.isAlpha
  let s2 := s1.2.span isSpaceC
  let s3 := s2.2.span (fun c => c.isAlpha || c.isDigit)
  if s1.1 ≠ [] ∧ s2.1 ≠ [] ∧ s3.1 ≠ [] ∧ boundaryAt s3.2 then
    some (s1.1 ++ ' ' :: s3.1)
  else none

/-- Embedding of `extractCarMakeModel` (part_006 lines 92-125). -/
def extractCarMakeModel (t : String) : String :=
  let cleaned := carCleaned t
  if cleaned.length < 6 then ""
  else if carVocabPats.any (containsIns cleaned) then ""
  else if carGreet.any (frontWordIns cleaned) then ""
  else
    match scanFirst m1At true cleaned with
    | some mm => ⟨trimChars mm⟩
    | none =>
      if containsWordIns cleaned carBrands then
        match scanFirst m2At true cleaned with
        | some mm => ⟨trimChars mm⟩
        | none => ""
      else ""

/-- Issue categories of `categorizeIssue` (part_006 lines 136-152). -/
inductive Cat where
  | noStart | overheating | brakes | pulling | checkEngine | transmission
  | ac | electrical | tire | noise | leak | general
  deriving DecidableEq, Repr

/-- Keyword `won't start` of the no-start alternation. -/
def wontStartKw : List Char :=
  "won".data ++ aposC :: "t start".data

/-- Keyword `won't shift` of the transmission alternation. -/
def wontShiftKw : List Char :=
  "won".data ++ aposC :: "t shift".data

/-- Embedding of `categorizeIssue`: an ordered cascade of case-insensitive
substring alternations over the (already lowercased) utterance. -/
def categorizeIssue (t : String) : Cat :=
  let d := t.data
  if ([wontStartKw, "wont start".data, "no start".data, "clicking".data,
       "starter".data, "dead battery".data, "jump start".data].any
      (containsIns d)) then .noStart
  else if (["overheat", "overheating", "temperature gauge", "coolant",
            "radiator", "steam"].map String.data).any (containsIns d) then
    .overheating
  else if (["brake", "grind", "squeal", "squeak", "pedal",
            "rotor"].map String.data).any (containsIns d) then .brakes
  else if (["pulls to the right", "pulls to the left", "pulling",
            "alignment", "steering wheel",
            "drifts"].map String.data).any (containsIns d) then .pulling
  else if (["check engine", "cel", "engine light", "code", "misfire",
            "rough idle"].map String.data).any (containsIns d) then
    .checkEngine
  else if ([("transmission").data, ("slipping").data, ("hard shift").data,
            wontShiftKw, ("gear").data].any (containsIns d)) then
    .transmission
  else if (["ac", "a/c", "air conditioner", "no cold",
            "blowing warm"].map String.data).any (containsIns d) then .ac
  else if (["battery", "alternator", "charging", "lights dim",
            "electrical"].map String.data).any (containsIns d) then
    .electrical
  else if (["flat tire", "tire", "puncture",
            "blowout"].map String.data).any (containsIns d) then .tire
  else if (["noise", "rattle", "clunk",
            "knock"].map String.data).any (containsIns d) then .noise
  else if (["leak", "leaking", "fluid", "puddle", "drip",
            "dripping"].map String.data).any (containsIns d) then .leak
  else .general

/-- Embedding of `estimateSpeakMs` (part_006 lines 292-297):
`max(1500, min(10000, ceil(len/12)*1000))` milliseconds. -/
def estimateSpeakMs (t : String) : Nat :=
  max 1500 (min 10000 (((t.data.length + 11) / 12) * 1000))

example : extractZip "my zip is 02321-1234, ok" = "02321" := by decide
example : extractZip "123456" = "" := by decide
example : extractName "Tom" = "Tom" := by decide
example : extractName "my brakes are grinding" = "" := by decide
example : extractName "my name is John Smith" = "John Smith" := by decide
example : extractName "john smith" = "john" := by decide
example : extractName "hello" = "" := by decide
example : extractCarYear "a 2015 car" = "2015" := by decide
example : extractCarMakeModel "2015 Toyota Camry" = "Toyota Camry" := by decide
example : extractCarMakeModel "it is pulling left" = "" := by decide
example : extractCarMakeModel "Toyota Camry" = "Toyota Camry" := by decide
example : categorizeIssue "my brakes are grinding" = Cat.brakes := by decide
example : looksLikeYes "  yes, correct" = true := by decide
example : looksLikeYes "yesterday" = false := by decide
example : looksLikeNo "no" = true := by decide
example : wantsHumanFromText "I want to talk to a person" = true := by decide
example : estimateSpeakMs "Hi there." = 1500 := by decide

/-- Slots that a correction choice can re-collect (part_006 line 467). -/
inductive CField where
  | zip | name | car | issue
  deriving DecidableEq, Repr

/-- Values of `currentStep` (part_006 line 475). -/
inductive Step where
  | issue | followup | car | name | zip | confirm
  deriving DecidableEq, Repr

/-- Labels for the lines the bot speaks; each constructor stands for one
fixed `say(...)` text of `drainPendingFinal` (the follow-up line carries
its category, matching `FOLLOWUP_BY_CATEGORY`). -/
inductive SayKind where
  | issueQ | followupQ (c : Cat) | carQ | nameQ | zipQ | confirmQ
  | confirmRepeat | correctionPrompt | correctionRetry
  | zipCorrectQ | nameCorrectQ | carCorrectQ | issueCorrectQ
  | ackTransfer | thanksClose
  deriving DecidableEq, Repr

/-- Tags for the two `upsertCallOutcome` patches issued inside
`drainPendingFinal`. -/
inductive UpTag where
  | transferRequested | confirmedTag
  deriving DecidableEq, Repr

/-- Observable actions of one turn: spoken lines, outcome upserts, the
`createLeadFromCall` invocation, the live transfer, and the GPT fallback
(whose externally produced reply is spoken but carries no dialogue
content of its own). -/
inductive Act where
  | say (k : SayKind)
  | upsertOutcome (tag : UpTag)
  | createLead
  | transferCall
  | gptFallback
  deriving DecidableEq, Repr

/-- Embedding of the per-call dialogue state (part_006 lines 443-476):
the `state` object plus the session-level `transferred` flag that the
transcript handler checks before dispatching a turn. -/
structure DState where
  name : String
  zip : String
  issueText : String
  issueCategory : Cat
  askedFollowup : Bool
  awaitingFollowupResponse : Bool
  awaitingConfirmation : Bool
  awaitingCorrectionChoice : Bool
  correctingField : Option CField
  confirmed : Bool
  carMakeModel : String
  carYear : String
  drivable : String
  urgencyWindow : String
  leadCreated : Bool
  currentStep : Step
  transferred : Bool
  deriving DecidableEq, Repr

/-- Initial state of a fresh call. -/
def initState : DState where
  name := ""
  zip := ""
  issueText := ""
  issueCategory := .general
  askedFollowup := false
  awaitingFollowupResponse := false
  awaitingConfirmation := false
  awaitingCorrectionChoice := false
  correctingField := none
  confirmed := false
  carMakeModel := ""
  carYear := ""
  drivable := ""
  urgencyWindow := ""
  leadCreated := false
  currentStep := .issue
  transferred := false

/-- Embedding of `readyToConfirm` (part_006 lines 547-550). -/
def readyToConfirm (s : DState) : Bool :=
  s.issueText ≠ "" && s.carMakeModel ≠ "" && s.name ≠ "" && s.zip ≠ ""

/-- One dispatched utterance together with the environment's answer to
the lead insert (`createLeadFromCall` resolving `ok`), which the source
reads when deciding whether to set `leadCreated`. -/
structure Inp where
  text : String
  leadOk : Bool
  deriving DecidableEq, Repr

/-- Human-escalation branch (part_006 lines 589-610). -/
def transferBranch (s : DState) : DState × List Act :=
  ({ s with transferred := true },
   [.upsertOutcome .transferRequested, .say .ackTransfer, .transferCall])

/-- Correction-choice branch (part_006 lines 613-656): map the utterance
to a slot, clear that slot, record it in `correctingField`, move
`currentStep` back, and ask that slot's question; re-prompt when nothing
matches. -/
def correctionBranch (s : DState) (text : String) : DState × List Act :=
  let d := text.data
  if containsIns d "zip".data || containsIns d "zip code".data ||
      containsIns d "zipcode".data then
    ({ s with correctingField := some .zip, zip := "", currentStep := .zip,
              awaitingCorrectionChoice := false }, [.say .zipCorrectQ])
  else if containsIns d "name".data || containsIns d "first name".data then
    ({ s with correctingField := some .name, name := "",
              currentStep := .name, awaitingCorrectionChoice := false },
     [.say .nameCorrectQ])
  else if containsIns d "car".data || containsIns d "vehicle".data ||
      containsIns d "make".data || containsIns d "model".data then
    ({ s with correctingField := some .car, carMakeModel := "",
              carYear := "", currentStep := .car,
              awaitingCorrectionChoice := false }, [.say .carCorrectQ])
  else if containsIns d "issue".data || containsIns d "problem".data ||
      containsIns d "wrong".data then
    ({ s with correctingField := some .issue, issueText := "",
              currentStep := .issue, awaitingCorrectionChoice := false },
     [.say .issueCorrectQ])
  else (s, [.say .correctionRetry])

/-- Follow-up capture (part_006 lines 659-668): while awaiting the
elaboration, any utterance longer than three characters is appended to
the issue text and the step moves to `car`; control then falls through to
extraction. -/
def applyFollowup (s : DState) (text : String) : DState :=
  if s.awaitingFollowupResponse ∧ 3 < text.data.length then
    { s with issueText := s.issueText ++ ". " ++ text,
             awaitingFollowupResponse := false, currentStep := .car }
  else s

/-- ZIP extraction step (part_006 lines 672-680). -/
def applyZip (s : DState) (text : String) : DState :=
  if s.currentStep = .zip ∧ s.zip = "" then
    if extractZip text ≠ "" then
      { s with zip := extractZip text, correctingField := none }
    else s
  else s

/-- Name extraction step (part_006 lines 682-690). -/
def applyName (s : DState) (text : String) : DState :=
  if s.currentStep = .name ∧ s.name = "" then
    if extractName text ≠ "" then
      { s with name := extractName text, correctingField := none }
    else s
  else s

/-- Car extraction step (part_006 lines 692-710): year and make/model are
attempted independently while on the `car` step. -/
def applyCar (s : DState) (text : String) : DState :=
  let s1 :=
    if s.currentStep = .car ∧ s.carYear = "" then
      if extractCarYear text ≠ "" then
        { s with carYear := extractCarYear text }
      else s
    else s
  if s1.currentStep = .car ∧ s1.carMakeModel = "" then
    if extractCarMakeModel text ≠ "" then
      { s1 with carMakeModel := extractCarMakeModel text,
                correctingField := none }
    else s1
  else s1

/-- Issue capture (part_006 lines 712-724): only on the `issue` step
while the issue is empty, and only for utterances that are not just a
zip or a name and are longer than six characters. -/
def applyIssue (s : DState) (text : String) : DState :=
  if s.currentStep = .issue ∧ s.issueText = "" then
    if extractZip text = "" ∧ extractName text = "" ∧ 6 < text.data.length
    then
      { s with issueText := text, issueCategory := categorizeIssue text,
               correctingField := none }
    else s
  else s

/-- Phases 3-7 of `drainPendingFinal` in source order: follow-up append,
then zip, name, car and issue extraction. -/
def extractPhase (s : DState) (text : String) : DState :=
  applyIssue (applyCar (applyName (applyZip (applyFollowup s text) text)
    text) text) text

/-- Confirmation handling (part_006 lines 727-773): `yes` confirms,
writes the outcome, invokes `createLeadFromCall` unless a lead was
already created (recording success in `leadCreated`), and speaks the
closing line; `no` moves to the correction choice; anything else re-asks. -/
def confirmBranch (s : DState) (inp : Inp) : DState × List Act :=
  if looksLikeYes inp.text then
    let s1 := { s with confirmed := true, awaitingConfirmation := false }
    if s1.leadCreated then
      (s1, [.upsertOutcome .confirmedTag, .say .thanksClose])
    else
      ((if inp.leadOk then { s1 with leadCreated := true } else s1),
       [.upsertOutcome .confirmedTag, .createLead, .say .thanksClose])
  else if looksLikeNo inp.text then
    ({ s with awaitingConfirmation := false,
              awaitingCorrectionChoice := true }, [.say .correctionPrompt])
  else (s, [.say .confirmRepeat])

/-- Question cascade (part_006 lines 775-858): ask for the first missing
item in the fixed order issue, follow-up, car, name, zip, confirmation;
otherwise fall back to the GPT prompt. -/
def cascade (s : DState) : DState × List Act :=
  if s.issueText = "" then
    ({ s with currentStep := .issue }, [.say .issueQ])
  else if s.issueText ≠ "" ∧ ¬s.askedFollowup then
    ({ s with askedFollowup := true, awaitingFollowupResponse := true,
              currentStep := .followup },
     [.say (.followupQ s.issueCategory)])
  else if s.carMakeModel = "" then
    ({ s with currentStep := .car }, [.say .carQ])
  else if s.name = "" then
    ({ s with currentStep := .name }, [.say .nameQ])
  else if s.zip = "" then
    ({ s with currentStep := .zip }, [.say .zipQ])
  else if readyToConfirm s ∧ ¬s.confirmed ∧ ¬s.awaitingConfirmation then
    ({ s with awaitingConfirmation := true, currentStep := .confirm },
     [.say .confirmQ])
  else (s, [.gptFallback])

/-- Embedding of the body of `drainPendingFinal` (part_006 lines
577-877) for one dispatched utterance. -/
def drainStep (s : DState) (inp : Inp) : DState × List Act :=
  if wantsHumanFromText inp.text then transferBranch s
  else if s.awaitingCorrectionChoice then correctionBranch s inp.text
  else
    let s7 := extractPhase s inp.text
    if s7.awaitingConfirmation ∧ ¬s7.confirmed then confirmBranch s7 inp
    else cascade s7

/-- One dispatched utterance at session level: the transcript handler
drops everything once `transferred` is set (part_006 line 499). -/
def stepSession (s : DState) (inp : Inp) : DState × List Act :=
  if s.transferred then (s, []) else drainStep s inp

/-- Run a whole sequence of dispatched utterances, collecting actions. -/
def run : DState → List Inp → DState × List Act
  | s, [] => (s, [])
  | s, i :: is =>
    let r := stepSession s i
    let r2 := run r.1 is
    (r2.1, r.2 ++ r2.2)

/-- Utterances of the complete nominal dialogue used by several concrete
checks below. -/
def nominalTrace : List Inp :=
  [⟨"hello", false⟩, ⟨"my brakes are grinding", false⟩,
   ⟨"it grinds when braking", false⟩, ⟨"2015 Toyota Camry", false⟩,
   ⟨"Tom", false⟩, ⟨"02321", false⟩]

/-- State after the caller described the brake issue: the category
follow-up has been asked. -/
def nomSt2 : DState :=
  { initState with issueText := "my brakes are grinding",
                   issueCategory := .brakes, askedFollowup := true,
                   awaitingFollowupResponse := true,
                   currentStep := .followup }

/-- State after the follow-up elaboration was appended. -/
def nomSt3 : DState :=
  { nomSt2 with
      issueText := "my brakes are grinding. it grinds when braking",
      awaitingFollowupResponse := false, currentStep := .car }

/-- State after the vehicle was captured. -/
def nomSt4 : DState :=
  { nomSt3 with carMakeModel := "Toyota Camry", carYear := "2015",
                currentStep := .name }

/-- State after the name was captured. -/
def nomSt5 : DState :=
  { nomSt4 with name := "Tom", currentStep := .zip }

/-- State after the ZIP was captured: confirmation is pending. -/
def nomSt6 : DState :=
  { nomSt5 with zip := "02321", awaitingConfirmation := true,
                currentStep := .confirm }

/-- State after the caller confirmed: the lead has been created. -/
def nomSt7 : DState :=
  { nomSt6 with awaitingConfirmation := false, confirmed := true,
                leadCreated := true }

theorem nomStep1 :
    stepSession initState ⟨"hello", false⟩ =
      (initState, [Act.say .issueQ]) := by decide

theorem nomStep2 :
    stepSession initState ⟨"my brakes are grinding", false⟩ =
      (nomSt2, [Act.say (.followupQ .brakes)]) := by decide

theorem nomStep3 :
    stepSession nomSt2 ⟨"it grinds when braking", false⟩ =
      (nomSt3, [Act.say .carQ]) := by decide

theorem nomStep4 :
    stepSession nomSt3 ⟨"2015 Toyota Camry", false⟩ =
      (nomSt4, [Act.say .nameQ]) := by decide

theorem nomStep5 :
    stepSession nomSt4 ⟨"Tom", false⟩ =
      (nomSt5, [Act.say .zipQ]) := by decide

theorem nomStep6 :
    stepSession nomSt5 ⟨"02321", false⟩ =
      (nomSt6, [Act.say .confirmQ]) := by decide

theorem nomStep7 :
    stepSession nomSt6 ⟨"yes", true⟩ =
      (nomSt7, [Act.upsertOutcome .confirmedTag, Act.createLead,
                Act.say .thanksClose]) := by decide

theorem nomStep8 :
    stepSession nomSt7 ⟨"yes", true⟩ = (nomSt7, [Act.gptFallback]) := by
  decide

theorem runNominal :
    run initState nominalTrace =
      (nomSt6,
       [.say .issueQ, .say (.followupQ .brakes), .say .carQ, .say .nameQ,
        .say .zipQ, .say .confirmQ]) := by
  simp only [nominalTrace, run, nomStep1, nomStep2, nomStep3, nomStep4,
    nomStep5, nomStep6]
  rfl

/-- The nominal dialogue continued with an affirmative confirmation and a
repeated affirmative. -/
def confirmedTrace : List Inp :=
  nominalTrace ++ [⟨"yes", true⟩, ⟨"yes", true⟩]

theorem runConfirmed :
    run initState confirmedTrace =
      (nomSt7,
       [.say .issueQ, .say (.followupQ .brakes), .say .carQ, .say .nameQ,
        .say .zipQ, .say .confirmQ, .upsertOutcome .confirmedTag,
        .createLead, .say .thanksClose, .gptFallback]) := by
  simp only [confirmedTrace, nominalTrace, List.cons_append, List.nil_append,
    run, nomStep1, nomStep2, nomStep3, nomStep4, nomStep5, nomStep6,
    nomStep7, nomStep8]

@[simp] theorem applyFollowup_confirmed (s : DState) (t : String) :
    (applyFollowup s t).confirmed = s.confirmed := by
  unfold applyFollowup
  split_ifs <;> rfl

@[simp] theorem applyFollowup_leadCreated (s : DState) (t : String) :
    (applyFollowup s t).leadCreated = s.leadCreated := by
  unfold applyFollowup
  split_ifs <;> rfl

@[simp] theorem applyFollowup_transferred (s : DState) (t : String) :
    (applyFollowup s t).transferred = s.transferred := by
  unfold applyFollowup
  split_ifs <;> rfl

@[simp] theorem applyFollowup_awaitingConfirmation (s : DState)
    (t : String) :
    (applyFollowup s t).awaitingConfirmation = s.awaitingConfirmation := by
  unfold applyFollowup
  split_ifs <;> rfl

@[simp] theorem applyFollowup_awaitingCorrectionChoice (s : DState)
    (t : String) :
    (applyFollowup s t).awaitingCorrectionChoice =
      s.awaitingCorrectionChoice := by
  unfold applyFollowup
  split_ifs <;> rfl

@[simp] theorem applyFollowup_askedFollowup (s : DState) (t : String) :
    (applyFollowup s t).askedFollowup = s.askedFollowup := by
  unfold applyFollowup
  split_ifs <;> rfl

@[simp] theorem applyZip_confirmed (s : DState) (t : String) :
    (applyZip s t).confirmed = s.confirmed := by
  unfold applyZip
  split_ifs <;> rfl

@[simp] theorem applyZip_leadCreated (s : DState) (t : String) :
    (applyZip s t).leadCreated = s.leadCreated := by
  unfold applyZip
  split_ifs <;> rfl

@[simp] theorem applyZip_transferred (s : DState) (t : String) :
    (applyZip s t).transferred = s.transferred := by
  unfold applyZip
  split_ifs <;> rfl

@[simp] theorem applyZip_awaitingConfirmation (s : DState) (t : String) :
    (applyZip s t).awaitingConfirmation = s.awaitingConfirmation := by
  unfold applyZip
  split_ifs <;> rfl

@[simp] theorem applyZip_awaitingCorrectionChoice (s : DState)
    (t : String) :
    (applyZip s t).awaitingCorrectionChoice = s.awaitingCorrectionChoice := by
  unfold applyZip
  split_ifs <;> rfl

@[simp] theorem applyZip_askedFollowup (s : DState) (t : String) :
    (applyZip s t).askedFollowup = s.askedFollowup := by
  unfold applyZip
  split_ifs <;> rfl

@[simp] theorem applyZip_awaitingFollowupResponse (s : DState)
    (t : String) :
    (applyZip s t).awaitingFollowupResponse = s.awaitingFollowupResponse := by
  unfold applyZip
  split_ifs <;> rfl

@[simp] theorem applyName_confirmed (s : DState) (t : String) :
    (applyName s t).confirmed = s.confirmed := by
  unfold applyName
  split_ifs <;> rfl

@[simp] theorem applyName_leadCreated (s : DState) (t : String) :
    (applyName s t).leadCreated = s.leadCreated := by
  unfold applyName
  split_ifs <;> rfl

@[simp] theorem applyName_transferred (s : DState) (t : String) :
    (applyName s t).transferred = s.transferred := by
  unfold applyName
  split_ifs <;> rfl

@[simp] theorem applyName_awaitingConfirmation (s : DState) (t : String) :
    (applyName s t).awaitingConfirmation = s.awaitingConfirmation := by
  unfold applyName
  split_ifs <;> rfl

@[simp] theorem applyName_awaitingCorrectionChoice (s : DState)
    (t : String) :
    (applyName s t).awaitingCorrectionChoice =
      s.awaitingCorrectionChoice := by
  unfold applyName
  split_ifs <;> rfl

@[simp] theorem applyName_askedFollowup (s : DState) (t : String) :
    (applyName s t).askedFollowup = s.askedFollowup := by
  unfold applyName
  split_ifs <;> rfl

@[simp] theorem applyName_awaitingFollowupResponse (s : DState)
    (t : String) :
    (applyName s t).awaitingFollowupResponse =
      s.awaitingFollowupResponse := by
  unfold applyName
  split_ifs <;> rfl

@[simp] theorem applyCar_confirmed (s : DState) (t : String) :
    (applyCar s t).confirmed = s.confirmed := by
  unfold applyCar
  dsimp only
  split_ifs <;> rfl

@[simp] theorem applyCar_leadCreated (s : DState) (t : String) :
    (applyCar s t).leadCreated = s.leadCreated := by
  unfold applyCar
  dsimp only
  split_ifs <;> rfl

@[simp] theorem applyCar_transferred (s : DState) (t : String) :
    (applyCar s t).transferred = s.transferred := by
  unfold applyCar
  dsimp only
  split_ifs <;> rfl

@[simp] theorem applyCar_awaitingConfirmation (s : DState) (t : String) :
    (applyCar s t).awaitingConfirmation = s.awaitingConfirmation := by
  unfold applyCar
  dsimp only
  split_ifs <;> rfl

@[simp] theorem applyCar_awaitingCorrectionChoice (s : DState)
    (t : String) :
    (applyCar s t).awaitingCorrectionChoice = s.awaitingCorrectionChoice := by
  unfold applyCar
  dsimp only
  split_ifs <;> rfl

@[simp] theorem applyCar_askedFollowup (s : DState) (t : String) :
    (applyCar s t).askedFollowup = s.askedFollowup := by
  unfold applyCar
  dsimp only
  split_ifs <;> rfl

@[simp] theorem applyCar_awaitingFollowupResponse (s : DState)
    (t : String) :
    (applyCar s t).awaitingFollowupResponse = s.awaitingFollowupResponse := by
  unfold applyCar
  dsimp only
  split_ifs <;> rfl

@[simp] theorem applyIssue_confirmed (s : DState) (t : String) :
    (applyIssue s t).confirmed = s.confirmed := by
  unfold applyIssue
  split_ifs <;> rfl

@[simp] theorem applyIssue_leadCreated (s : DState) (t : String) :
    (applyIssue s t).leadCreated = s.leadCreated := by
  unfold applyIssue
  split_ifs <;> rfl

@[simp] theorem applyIssue_transferred (s : DState) (t : String) :
    (applyIssue s t).transferred = s.transferred := by
  unfold applyIssue
  split_ifs <;> rfl

@[simp] theorem applyIssue_awaitingConfirmation (s : DState)
    (t : String) :
    (applyIssue s t).awaitingConfirmation = s.awaitingConfirmation := by
  unfold applyIssue
  split_ifs <;> rfl

@[simp] theorem applyIssue_awaitingCorrectionChoice (s : DState)
    (t : String) :
    (applyIssue s t).awaitingCorrectionChoice =
      s.awaitingCorrectionChoice := by
  unfold applyIssue
  split_ifs <;> rfl

@[simp] theorem applyIssue_askedFollowup (s : DState) (t : String) :
    (applyIssue s t).askedFollowup = s.askedFollowup := by
  unfold applyIssue
  split_ifs <;> rfl

@[simp] theorem applyIssue_awaitingFollowupResponse (s : DState)
    (t : String) :
    (applyIssue s t).awaitingFollowupResponse =
      s.awaitingFollowupResponse := by
  unfold applyIssue
  split_ifs <;> rfl

@[simp] theorem extractPhase_confirmed (s : DState) (t : String) :
    (extractPhase s t).confirmed = s.confirmed := by
  simp [extractPhase]

@[simp] theorem extractPhase_leadCreated (s : DState) (t : String) :
    (extractPhase s t).leadCreated = s.leadCreated := by
  simp [extractPhase]

@[simp] theorem extractPhase_transferred (s : DState) (t : String) :
    (extractPhase s t).transferred = s.transferred := by
  simp [extractPhase]

@[simp] theorem extractPhase_awaitingConfirmation (s : DState)
    (t : String) :
    (extractPhase s t).awaitingConfirmation = s.awaitingConfirmation := by
  simp [extractPhase]

@[simp] theorem extractPhase_awaitingCorrectionChoice (s : DState)
    (t : String) :
    (extractPhase s t).awaitingCorrectionChoice =
      s.awaitingCorrectionChoice := by
  simp [extractPhase]

@[simp] theorem extractPhase_askedFollowup (s : DState) (t : String) :
    (extractPhase s t).askedFollowup = s.askedFollowup := by
  simp [extractPhase]

@[simp] theorem applyFollowup_name (s : DState) (t : String) :
    (applyFollowup s t).name = s.name := by
  unfold applyFollowup
  split_ifs <;> rfl

@[simp] theorem applyFollowup_zip (s : DState) (t : String) :
    (applyFollowup s t).zip = s.zip := by
  unfold applyFollowup
  split_ifs <;> rfl

@[simp] theorem applyFollowup_carMakeModel (s : DState) (t : String) :
    (applyFollowup s t).carMakeModel = s.carMakeModel := by
  unfold applyFollowup
  split_ifs <;> rfl

@[simp] theorem applyFollowup_carYear (s : DState) (t : String) :
    (applyFollowup s t).carYear = s.carYear := by
  unfold applyFollowup
  split_ifs <;> rfl

@[simp] theorem applyFollowup_correctingField (s : DState) (t : String) :
    (applyFollowup s t).correctingField = s.correctingField := by
  unfold applyFollowup
  split_ifs <;> rfl

@[simp] theorem applyFollowup_issueCategory (s : DState) (t : String) :
    (applyFollowup s t).issueCategory = s.issueCategory := by
  unfold applyFollowup
  split_ifs <;> rfl

@[simp] theorem applyZip_name (s : DState) (t : String) :
    (applyZip s t).name = s.name := by
  unfold applyZip
  split_ifs <;> rfl

@[simp] theorem applyZip_issueText (s : DState) (t : String) :
    (applyZip s t).issueText = s.issueText := by
  unfold applyZip
  split_ifs <;> rfl

@[simp] theorem applyZip_carMakeModel (s : DState) (t : String) :
    (applyZip s t).carMakeModel = s.carMakeModel := by
  unfold applyZip
  split_ifs <;> rfl

@[simp] theorem applyZip_carYear (s : DState) (t : String) :
    (applyZip s t).carYear = s.carYear := by
  unfold applyZip
  split_ifs <;> rfl

@[simp] theorem applyZip_currentStep (s : DState) (t : String) :
    (applyZip s t).currentStep = s.currentStep := by
  unfold applyZip
  split_ifs <;> rfl

@[simp] theorem applyZip_issueCategory (s : DState) (t : String) :
    (applyZip s t).issueCategory = s.issueCategory := by
  unfold applyZip
  split_ifs <;> rfl

@[simp] theorem applyName_zip (s : DState) (t : String) :
    (applyName s t).zip = s.zip := by
  unfold applyName
  split_ifs <;> rfl

@[simp] theorem applyName_issueText (s : DState) (t : String) :
    (applyName s t).issueText = s.issueText := by
  unfold applyName
  split_ifs <;> rfl

@[simp] theorem applyName_carMakeModel (s : DState) (t : String) :
    (applyName s t).carMakeModel = s.carMakeModel := by
  unfold applyName
  split_ifs <;> rfl

@[simp] theorem applyName_carYear (s : DState) (t : String) :
    (applyName s t).carYear = s.carYear := by
  unfold applyName
  split_ifs <;> rfl

@[simp] theorem applyName_currentStep (s : DState) (t : String) :
    (applyName s t).currentStep = s.currentStep := by
  unfold applyName
  split_ifs <;> rfl

@[simp] theorem applyName_issueCategory (s : DState) (t : String) :
    (applyName s t).issueCategory = s.issueCategory := by
  unfold applyName
  split_ifs <;> rfl

@[simp] theorem applyCar_name (s : DState) (t : String) :
    (applyCar s t).name = s.name := by
  unfold applyCar
  dsimp only
  split_ifs <;> rfl

@[simp] theorem applyCar_zip (s : DState) (t : String) :
    (applyCar s t).zip = s.zip := by
  unfold applyCar
  dsimp only
  split_ifs <;> rfl

@[simp] theorem applyCar_issueText (s : DState) (t : String) :
    (applyCar s t).issueText = s.issueText := by
  unfold applyCar
  dsimp only
  split_ifs <;> rfl

@[simp] theorem applyCar_currentStep (s : DState) (t : String) :
    (applyCar s t).currentStep = s.currentStep := by
  unfold applyCar
  dsimp only
  split_ifs <;> rfl

@[simp] theorem applyCar_issueCategory (s : DState) (t : String) :
    (applyCar s t).issueCategory = s.issueCategory := by
  unfold applyCar
  dsimp only
  split_ifs <;> rfl

@[simp] theorem applyIssue_name (s : DState) (t : String) :
    (applyIssue s t).name = s.name := by
  unfold applyIssue
  split_ifs <;> rfl

@[simp] theorem applyIssue_zip (s : DState) (t : String) :
    (applyIssue s t).zip = s.zip := by
  unfold applyIssue
  split_ifs <;> rfl

@[simp] theorem applyIssue_carMakeModel (s : DState) (t : String) :
    (applyIssue s t).carMakeModel = s.carMakeModel := by
  unfold applyIssue
  split_ifs <;> rfl

@[simp] theorem applyIssue_carYear (s : DState) (t : String) :
    (applyIssue s t).carYear = s.carYear := by
  unfold applyIssue
  split_ifs <;> rfl

@[simp] theorem applyIssue_currentStep (s : DState) (t : String) :
    (applyIssue s t).currentStep = s.currentStep := by
  unfold applyIssue
  split_ifs <;> rfl

@[simp] theorem cascade_name (s : DState) :
    ((cascade s).1).name = s.name := by
  unfold cascade
  split_ifs <;> rfl

@[simp] theorem cascade_zip (s : DState) :
    ((cascade s).1).zip = s.zip := by
  unfold cascade
  split_ifs <;> rfl

@[simp] theorem cascade_issueText (s : DState) :
    ((cascade s).1).issueText = s.issueText := by
  unfold cascade
  split_ifs <;> rfl

@[simp] theorem cascade_carMakeModel (s : DState) :
    ((cascade s).1).carMakeModel = s.carMakeModel := by
  unfold cascade
  split_ifs <;> rfl

@[simp] theorem cascade_carYear (s : DState) :
    ((cascade s).1).carYear = s.carYear := by
  unfold cascade
  split_ifs <;> rfl

@[simp] theorem cascade_correctingField (s : DState) :
    ((cascade s).1).correctingField = s.correctingField := by
  unfold cascade
  split_ifs <;> rfl

@[simp] theorem cascade_issueCategory (s : DState) :
    ((cascade s).1).issueCategory = s.issueCategory := by
  unfold cascade
  split_ifs <;> rfl

@[simp] theorem confirmBranch_name (s : DState) (i : Inp) :
    ((confirmBranch s i).1).name = s.name := by
  unfold confirmBranch
  dsimp only
  split_ifs <;> rfl

@[simp] theorem confirmBranch_zip (s : DState) (i : Inp) :
    ((confirmBranch s i).1).zip = s.zip := by
  unfold confirmBranch
  dsimp only
  split_ifs <;> rfl

@[simp] theorem confirmBranch_issueText (s : DState) (i : Inp) :
    ((confirmBranch s i).1).issueText = s.issueText := by
  unfold confirmBranch
  dsimp only
  split_ifs <;> rfl

@[simp] theorem confirmBranch_carMakeModel (s : DState) (i : Inp) :
    ((confirmBranch s i).1).carMakeModel = s.carMakeModel := by
  unfold confirmBranch
  dsimp only
  split_ifs <;> rfl

@[simp] theorem confirmBranch_carYear (s : DState) (i : Inp) :
    ((confirmBranch s i).1).carYear = s.carYear := by
  unfold confirmBranch
  dsimp only
  split_ifs <;> rfl

@[simp] theorem confirmBranch_correctingField (s : DState) (i : Inp) :
    ((confirmBranch s i).1).correctingField = s.correctingField := by
  unfold confirmBranch
  dsimp only
  split_ifs <;> rfl

@[simp] theorem confirmBranch_currentStep (s : DState) (i : Inp) :
    ((confirmBranch s i).1).currentStep = s.currentStep := by
  unfold confirmBranch
  dsimp only
  split_ifs <;> rfl

@[simp] theorem confirmBranch_askedFollowup (s : DState) (i : Inp) :
    ((confirmBranch s i).1).askedFollowup = s.askedFollowup := by
  unfold confirmBranch
  dsimp only
  split_ifs <;> rfl

@[simp] theorem confirmBranch_awaitingFollowupResponse (s : DState) (i : Inp) :
    ((confirmBranch s i).1).awaitingFollowupResponse = s.awaitingFollowupResponse := by
  unfold confirmBranch
  dsimp only
  split_ifs <;> rfl

@[simp] theorem confirmBranch_transferred (s : DState) (i : Inp) :
    ((confirmBranch s i).1).transferred = s.transferred := by
  unfold confirmBranch
  dsimp only
  split_ifs <;> rfl

@[simp] theorem confirmBranch_issueCategory (s : DState) (i : Inp) :
    ((confirmBranch s i).1).issueCategory = s.issueCategory := by
  unfold confirmBranch
  dsimp only
  split_ifs <;> rfl

@[simp] theorem correctionBranch_askedFollowup (s : DState) (t : String) :
    ((correctionBranch s t).1).askedFollowup = s.askedFollowup := by
  unfold correctionBranch
  dsimp only
  split_ifs <;> rfl

@[simp] theorem correctionBranch_awaitingFollowupResponse (s : DState) (t : String) :
    ((correctionBranch s t).1).awaitingFollowupResponse = s.awaitingFollowupResponse := by
  unfold correctionBranch
  dsimp only
  split_ifs <;> rfl

@[simp] theorem correctionBranch_awaitingConfirmation (s : DState) (t : String) :
    ((correctionBranch s t).1).awaitingConfirmation = s.awaitingConfirmation := by
  unfold correctionBranch
  dsimp only
  split_ifs <;> rfl

@[simp] theorem correctionBranch_issueCategory (s : DState) (t : String) :
    ((correctionBranch s t).1).issueCategory = s.issueCategory := by
  unfold correctionBranch
  dsimp only
  split_ifs <;> rfl

theorem correctionBranch_acts (s : DState) (t : String) :
    ∃ k, (correctionBranch s t).2 = [Act.say k] := by
  unfold correctionBranch
  dsimp only
  split_ifs <;> exact ⟨_, rfl⟩

@[simp] theorem correctionBranch_confirmed (s : DState) (t : String) :
    (correctionBranch s t).1.confirmed = s.confirmed := by
  unfold correctionBranch
  dsimp only
  split_ifs <;> rfl

@[simp] theorem correctionBranch_leadCreated (s : DState) (t : String) :
    (correctionBranch s t).1.leadCreated = s.leadCreated := by
  unfold correctionBranch
  dsimp only
  split_ifs <;> rfl

@[simp] theorem correctionBranch_transferred (s : DState) (t : String) :
    (correctionBranch s t).1.transferred = s.transferred := by
  unfold correctionBranch
  dsimp only
  split_ifs <;> rfl

theorem cascade_acts (s : DState) :
    (∃ k, (cascade s).2 = [Act.say k]) ∨ (cascade s).2 = [Act.gptFallback] := by
  unfold cascade
  split_ifs
  · exact .inl ⟨_, rfl⟩
  · exact .inl ⟨_, rfl⟩
  · exact .inl ⟨_, rfl⟩
  · exact .inl ⟨_, rfl⟩
  · exact .inl ⟨_, rfl⟩
  · exact .inl ⟨_, rfl⟩
  · exact .inr rfl

@[simp] theorem cascade_confirmed (s : DState) :
    (cascade s).1.confirmed = s.confirmed := by
  unfold cascade
  split_ifs <;> rfl

@[simp] theorem cascade_leadCreated (s : DState) :
    (cascade s).1.leadCreated = s.leadCreated := by
  unfold cascade
  split_ifs <;> rfl

@[simp] theorem cascade_transferred (s : DState) :
    (cascade s).1.transferred = s.transferred := by
  unfold cascade
  split_ifs <;> rfl

theorem confirmBranch_lead_mem (s : DState) (i : Inp)
    (h : Act.createLead ∈ (confirmBranch s i).2) :
    looksLikeYes i.text = true ∧ s.leadCreated = false := by
  unfold confirmBranch at h
  dsimp only at h
  split_ifs at h with hyes hlead hok hno
  · simp at h
  · exact ⟨hyes, by simpa using hlead⟩
  · exact ⟨hyes, by simpa using hlead⟩
  · simp at h
  · simp at h

theorem confirmBranch_confirmed_yes (s : DState) (i : Inp)
    (h : looksLikeYes i.text = true) :
    (confirmBranch s i).1.confirmed = true := by
  unfold confirmBranch
  rw [if_pos h]
  dsimp only
  split_ifs <;> rfl

theorem confirmBranch_confirmed_of (s : DState) (i : Inp)
    (h : s.confirmed = true) :
    (confirmBranch s i).1.confirmed = true := by
  unfold confirmBranch
  dsimp only
  split_ifs <;> simpa using h

theorem confirmBranch_count (s : DState) (i : Inp) :
    (confirmBranch s i).2.count Act.createLead ≤ 1 := by
  unfold confirmBranch
  dsimp only
  split_ifs <;> simp [List.count_cons]

theorem lead_mem_step (s : DState) (i : Inp)
    (hmem : Act.createLead ∈ (stepSession s i).2) :
    s.confirmed = false ∧ (stepSession s i).1.confirmed = true := by
  simp only [stepSession] at hmem ⊢
  split_ifs at hmem ⊢ with htr
  · simp at hmem
  · simp only [drainStep] at hmem ⊢
    split_ifs at hmem ⊢ with hwant hcorr hconf
    · simp [transferBranch] at hmem
    · obtain ⟨k, hk⟩ := correctionBranch_acts s i.text
      rw [hk] at hmem
      simp at hmem
    · have h := confirmBranch_lead_mem _ i hmem
      refine ⟨?_, confirmBranch_confirmed_yes _ i h.1⟩
      have h2 := hconf.2
      simp only [extractPhase_confirmed] at h2
      simpa using h2
    · rcases cascade_acts (extractPhase s i.text) with ⟨k, hk⟩ | hk <;>
        rw [hk] at hmem <;> simp at hmem

theorem lead_count_step (s : DState) (i : Inp) :
    ((stepSession s i).2.count Act.createLead) ≤ 1 := by
  simp only [stepSession]
  split_ifs with htr
  · simp
  · simp only [drainStep]
    split_ifs with hwant hcorr hconf
    · simp [transferBranch, List.count_cons]
    · obtain ⟨k, hk⟩ := correctionBranch_acts s i.text
      rw [hk]
      simp [List.count_cons]
    · exact confirmBranch_count _ i
    · rcases cascade_acts (extractPhase s i.text) with ⟨k, hk⟩ | hk <;>
        rw [hk] <;> simp [List.count_cons]

theorem confirmed_mono (s : DState) (i : Inp) (h : s.confirmed = true) :
    (stepSession s i).1.confirmed = true := by
  simp only [stepSession]
  split_ifs with htr
  · exact h
  · simp only [drainStep]
    split_ifs with hwant hcorr hconf
    · simpa [transferBranch] using h
    · rw [correctionBranch_confirmed]
      exact h
    · exact confirmBranch_confirmed_of _ i (by simpa using h)
    · rw [cascade_confirmed]
      simpa using h

theorem lead_count_run (inps : List Inp) :
    ∀ s : DState, (run s inps).2.count Act.createLead ≤ 1 ∧
      (s.confirmed = true → (run s inps).2.count Act.createLead = 0) := by
  induction inps with
  | nil => intro s; simp [run]
  | cons i is ih =>
    intro s
    have h1 := lead_count_step s i
    have hih := ih (stepSession s i).1
    constructor
    · by_cases hc : s.confirmed = true
      · have hz : ((stepSession s i).2.count Act.createLead) = 0 := by
          by_contra hne
          have hmem : Act.createLead ∈ (stepSession s i).2 :=
            List.count_pos_iff.mp (Nat.pos_of_ne_zero hne)
          exact absurd hc (by simp [(lead_mem_step s i hmem).1])
        have hz2 := hih.2 (confirmed_mono s i hc)
        simp [run, List.count_append, hz, hz2]
      · by_cases hz : ((stepSession s i).2.count Act.createLead) = 0
        · simpa [run, List.count_append, hz] using hih.1
        · have hmem : Act.createLead ∈ (stepSession s i).2 :=
            List.count_pos_iff.mp (Nat.pos_of_ne_zero hz)
          have hconf := (lead_mem_step s i hmem).2
          have hz2 := hih.2 hconf
          simp only [run, List.count_append, hz2, Nat.add_zero]
          exact h1
    · intro hc
      have hz : ((stepSession s i).2.count Act.createLead) = 0 := by
        by_contra hne
        have hmem : Act.createLead ∈ (stepSession s i).2 :=
          List.count_pos_iff.mp (Nat.pos_of_ne_zero hne)
        exact absurd hc (by simp [(lead_mem_step s i hmem).1])
      have hz2 := hih.2 (confirmed_mono s i hc)
      simp [run, List.count_append, hz, hz2]

/-- C1: over any sequence of dispatched utterances for one session,
`createLeadFromCall` is invoked at most once; in particular once the
confirmation has succeeded (`confirmed` set), no later utterance —
affirmative or otherwise — produces another invocation. -/
theorem c1_lead_at_most_once (inps : List Inp) :
    (run initState inps).2.count Act.createLead ≤ 1 ∧
    (∀ s : DState, s.confirmed = true →
      (run s inps).2.count Act.createLead = 0) := by
  refine ⟨(lead_count_run inps initState).1, ?_⟩
  intro s hs
  exact (lead_count_run inps s).2 hs

/-- Witness for C1: the nominal dialogue followed by an affirmative and a
repeated affirmative creates exactly one lead, and from the confirmed
state a further affirmative creates none. -/
theorem c1_lead_at_most_once_witness :
    (run initState confirmedTrace).2.count Act.createLead = 1 ∧
    nomSt7.confirmed = true ∧
    (run nomSt7 [⟨"yes", true⟩]).2.count Act.createLead = 0 := by
  refine ⟨?_, rfl, ?_⟩
  · rw [runConfirmed]
    decide
  · exact (c1_lead_at_most_once [⟨"yes", true⟩]).2 nomSt7 rfl

theorem applyFollowup_id (s : DState) (t : String)
    (h : s.awaitingFollowupResponse = false) : applyFollowup s t = s := by
  unfold applyFollowup
  rw [if_neg]
  simp [h]

theorem applyIssue_reject (s : DState) (t : String)
    (h : ¬(extractZip t = "" ∧ extractName t = "" ∧ 6 < t.data.length)) :
    (applyIssue s t).issueText = s.issueText := by
  unfold applyIssue
  split_ifs <;> simp_all

theorem applyIssue_off (s : DState) (t : String)
    (h : ¬s.currentStep = Step.issue) : applyIssue s t = s := by
  unfold applyIssue
  rw [if_neg]
  intro hc
  exact h hc.1

theorem extractPhase_issueText_reject (s : DState) (t : String)
    (hAw : s.awaitingFollowupResponse = false)
    (hrej : ¬(extractZip t = "" ∧ extractName t = "" ∧ 6 < t.data.length)) :
    (extractPhase s t).issueText = s.issueText := by
  unfold extractPhase
  rw [applyFollowup_id s t hAw, applyIssue_reject _ t hrej]
  simp

theorem extractPhase_issueText_off (s : DState) (t : String)
    (hAw : s.awaitingFollowupResponse = false)
    (hstep : ¬s.currentStep = Step.issue) :
    (extractPhase s t).issueText = s.issueText := by
  unfold extractPhase
  rw [applyFollowup_id s t hAw]
  rw [applyIssue_off _ t (by simp [hstep])]
  simp

theorem step_issueText_alt (s : DState) (i : Inp)
    (hAw : s.awaitingFollowupResponse = false)
    (hext : (extractPhase s i.text).issueText = s.issueText) :
    (stepSession s i).1.issueText = s.issueText ∨
      ((stepSession s i).1.issueText = "" ∧
        s.awaitingCorrectionChoice = true) := by
  simp only [stepSession]
  split_ifs with htr
  · exact .inl rfl
  · simp only [drainStep]
    split_ifs with hwant hcorr hconf
    · exact .inl (by simp [transferBranch])
    · unfold correctionBranch
      dsimp only
      split_ifs
      · exact .inl rfl
      · exact .inl rfl
      · exact .inl rfl
      · exact .inr ⟨rfl, hcorr⟩
      · exact .inl rfl
    · rw [confirmBranch_issueText, hext]
      exact .inl rfl
    · rw [cascade_issueText, hext]
      exact .inl rfl

/-- C4: from any non-transferred session state, an utterance matching the
human-request vocabulary moves the session to `transferred` with exactly
the transfer actions (outcome write, short spoken acknowledgment, live
transfer call); and a transferred session processes no further input and
emits no further action (in particular no slot question) on any later
utterances. -/
theorem c4_escalation :
    (∀ (s : DState) (i : Inp), s.transferred = false →
      wantsHumanFromText i.text = true →
      stepSession s i =
        ({ s with transferred := true },
         [Act.upsertOutcome .transferRequested, Act.say .ackTransfer,
          Act.transferCall])) ∧
    (∀ (s : DState) (inps : List Inp), s.transferred = true →
      run s inps = (s, [])) := by
  constructor
  · intro s i htr hwant
    unfold stepSession drainStep
    rw [if_neg (by simp [htr]), if_pos hwant]
    rfl
  · intro s inps htr
    induction inps with
    | nil => rfl
    | cons i is ih =>
      have hstep : stepSession s i = (s, []) := by
        unfold stepSession
        rw [if_pos htr]
      simp only [run, hstep]
      rw [ih]
      rfl

/-- Witness for C4: the utterance of Scenario 4 transfers a fresh session,
and the transferred session ignores subsequent utterances. -/
theorem c4_escalation_witness :
    stepSession initState ⟨"I want to talk to a person", false⟩ =
      ({ initState with transferred := true },
       [Act.upsertOutcome .transferRequested, Act.say .ackTransfer,
        Act.transferCall]) ∧
    run { initState with transferred := true }
        [⟨"my brakes are grinding", false⟩, ⟨"yes", true⟩] =
      ({ initState with transferred := true }, []) := by
  exact ⟨c4_escalation.1 initState _ rfl (by decide),
         c4_escalation.2 _ _ rfl⟩

/-- C9: issue capture happens only on the `issue` step while the issue
slot is empty: an utterance that is shorter than six characters, or that
parses as a zip, or that parses as a name, is rejected (the slot stays
empty); when the step is not `issue`, an empty issue slot stays empty;
and concretely (Scenario 5) the utterance `Tom` on a fresh session leaves
the issue empty and the policy re-asks the issue question. -/
theorem c9_issue_capture :
    (∀ (s : DState) (i : Inp), s.issueText = "" →
      s.awaitingFollowupResponse = false →
      (i.text.length < 6 ∨ extractZip i.text ≠ "" ∨
        extractName i.text ≠ "") →
      (stepSession s i).1.issueText = "") ∧
    (∀ (s : DState) (i : Inp), s.issueText = "" →
      s.awaitingFollowupResponse = false →
      ¬s.currentStep = Step.issue →
      (stepSession s i).1.issueText = "") ∧
    stepSession initState ⟨"Tom", false⟩ =
      (initState, [Act.say .issueQ]) := by
  refine ⟨?_, ?_, by decide⟩
  · intro s i hempty hAw hrej
    have hrej2 : ¬(extractZip i.text = "" ∧ extractName i.text = "" ∧
        6 < i.text.data.length) := by
      rintro ⟨hz, hn, hl⟩
      rcases hrej with hlen | h | h
      · have : i.text.length = i.text.data.length := rfl
        omega
      · exact h hz
      · exact h hn
    rcases step_issueText_alt s i hAw
        (extractPhase_issueText_reject s i.text hAw hrej2) with h | h
    · rw [h]; exact hempty
    · exact h.1
  · intro s i hempty hAw hstep
    rcases step_issueText_alt s i hAw
        (extractPhase_issueText_off s i.text hAw hstep) with h | h
    · rw [h]; exact hempty
    · exact h.1

/-- Witness for C9 at Scenario 5: `Tom` on the issue step is rejected
both as too short and as name-like, and during the name step it likewise
cannot fill the issue slot. -/
theorem c9_issue_capture_witness :
    (stepSession initState ⟨"Tom", false⟩).1.issueText = "" ∧
    (stepSession { initState with currentStep := .name }
        ⟨"brief", false⟩).1.issueText = "" := by
  exact ⟨c9_issue_capture.1 initState ⟨"Tom", false⟩ rfl rfl
          (by decide),
         c9_issue_capture.2.1 { initState with currentStep := .name }
          ⟨"brief", false⟩ rfl rfl (by decide)⟩

/-- Counterexample to the literal C8 claim: the two-token utterance
joining john and smith carries no vehicle-problem vocabulary and no
self-introduction phrasing, and is not a single bare token, yet
`extractName` still matches, returning the first of the two tokens. -/
theorem c8_name_rules_counterexample :
    nameVocabPats.any (containsIns (trimChars "john smith".data)) = false ∧
    introAccepted (trimChars "john smith".data) = none ∧
    (nameTokens (trimChars "john smith".data)).length = 2 ∧
    extractName "john smith" = "john" := by decide

/-- C8 (amended): `extractName` returns no match for every utterance
containing vehicle-problem vocabulary; absent such vocabulary it returns
the accepted self-introduction capture when one exists; failing that, for
a cleaned token list of one token, or of exactly two tokens of which the
first is taken, it returns that token exactly when it has 2-15 letters
and is not on the stop-word list; and with zero or three or more tokens
it returns no match. -/
theorem c8_name_rules (t : String) :
    (nameVocabPats.any (containsIns (trimChars t.data)) = true →
      extractName t = "") ∧
    (∀ cap, nameVocabPats.any (containsIns (trimChars t.data)) = false →
      introAccepted (trimChars t.data) = some cap →
      extractName t = ⟨cap⟩) ∧
    (∀ w, nameVocabPats.any (containsIns (trimChars t.data)) = false →
      introAccepted (trimChars t.data) = none →
      (nameTokens (trimChars t.data) = [w] ∨
        ∃ w2, nameTokens (trimChars t.data) = [w, w2]) →
      extractName t =
        if 2 ≤ w.length ∧ w.length ≤ 15 ∧
            nameStop.any (eqIns w) = false then ⟨w⟩ else "") ∧
    (nameVocabPats.any (containsIns (trimChars t.data)) = false →
      introAccepted (trimChars t.data) = none →
      (nameTokens (trimChars t.data) = [] ∨
        3 ≤ (nameTokens (trimChars t.data)).length) →
      extractName t = "") := by
  refine ⟨?_, ?_, ?_, ?_⟩
  · intro hv
    unfold extractName
    dsimp only
    rw [if_pos hv]
  · intro cap hv hi
    unfold extractName
    dsimp only
    rw [if_neg (by simp [hv]), hi]
  · intro w hv hi htk
    unfold extractName
    dsimp only
    rw [if_neg (by simp [hv]), hi]
    show bareName (trimChars t.data) = _
    unfold bareName
    rcases htk with h1 | ⟨w2, h2⟩
    · rw [h1]
      dsimp only
      split_ifs <;> simp_all
    · rw [h2]
      dsimp only
      split_ifs <;> simp_all
  · intro hv hi htk
    unfold extractName
    dsimp only
    rw [if_neg (by simp [hv]), hi]
    show bareName (trimChars t.data) = _
    unfold bareName
    rcases htk with h1 | h3
    · rw [h1]
    · rcases hl : nameTokens (trimChars t.data) with _ | ⟨a, _ | ⟨b, _ | ⟨c, l3⟩⟩⟩
      · rfl
      · rw [hl] at h3
        simp at h3
      · rw [hl] at h3
        simp at h3
      · rfl

/-- Witness for C8 at concrete inputs: a symptom sentence is rejected, a
self-introduction is captured, a bare first name is accepted, a
stop-listed word and a three-token utterance are rejected. -/
theorem c8_name_rules_witness :
    extractName "my brakes squeal" = "" ∧
    extractName "my name is maria lopez" = "maria lopez" ∧
    extractName "tom" = "tom" ∧
    extractName "yeah" = "" ∧
    extractName "bob bob bob" = "" := by
  refine ⟨(c8_name_rules "my brakes squeal").1 (by decide),
    (c8_name_rules "my name is maria lopez").2.1 "maria lopez".data
      (by decide) (by decide),
    ((c8_name_rules "tom").2.2.1 "tom".data (by decide) (by decide)
      (Or.inl (by decide))).trans (by decide),
    ((c8_name_rules "yeah").2.2.1 "yeah".data (by decide) (by decide)
      (Or.inl (by decide))).trans (by decide),
    (c8_name_rules "bob bob bob").2.2.2 (by decide) (by decide)
      (Or.inr (by decide))⟩

theorem correctionBranch_say_mem (s : DState) (t : String) (k : SayKind)
    (h : Act.say k ∈ (correctionBranch s t).2) :
    k = .zipCorrectQ ∨ k = .nameCorrectQ ∨ k = .carCorrectQ ∨
      k = .issueCorrectQ ∨ k = .correctionRetry := by
  unfold correctionBranch at h
  dsimp only at h
  split_ifs at h <;> simp_all

theorem confirmBranch_say_mem (s : DState) (i : Inp) (k : SayKind)
    (h : Act.say k ∈ (confirmBranch s i).2) :
    k = .thanksClose ∨ k = .correctionPrompt ∨ k = .confirmRepeat := by
  unfold confirmBranch at h
  dsimp only at h
  split_ifs at h <;> simp_all

theorem cascade_mem_issueQ (s : DState)
    (h : Act.say .issueQ ∈ (cascade s).2) : s.issueText = "" := by
  unfold cascade at h
  split_ifs at h <;> simp_all

theorem cascade_mem_followupQ (s : DState) (c : Cat)
    (h : Act.say (.followupQ c) ∈ (cascade s).2) :
    s.askedFollowup = false ∧ (cascade s).1.askedFollowup = true := by
  unfold cascade at h ⊢
  split_ifs at h ⊢ <;> simp_all

theorem cascade_mem_carQ (s : DState)
    (h : Act.say .carQ ∈ (cascade s).2) : s.carMakeModel = "" := by
  unfold cascade at h
  split_ifs at h <;> simp_all

theorem cascade_mem_nameQ (s : DState)
    (h : Act.say .nameQ ∈ (cascade s).2) : s.name = "" := by
  unfold cascade at h
  split_ifs at h <;> simp_all

theorem cascade_mem_zipQ (s : DState)
    (h : Act.say .zipQ ∈ (cascade s).2) : s.zip = "" := by
  unfold cascade at h
  split_ifs at h <;> simp_all

theorem cascade_mem_confirmQ (s : DState)
    (h : Act.say .confirmQ ∈ (cascade s).2) :
    s.confirmed = false ∧ s.awaitingConfirmation = false ∧
      (cascade s).1.awaitingConfirmation = true := by
  unfold cascade at h ⊢
  split_ifs at h ⊢ <;> simp_all

/-- C3 counterexample: the complete nominal dialogue runs from the empty
state to the confirmation question after exactly six policy questions —
issue, follow-up, car, name, zip, confirm — so the dialogue policy never
asks the phone, urgency, or drivable questions of the claimed
nine-question sequence (the policy has no such question lines at all). -/
theorem c3_question_order_counterexample :
    (run initState nominalTrace).2 =
      [Act.say .issueQ, Act.say (.followupQ .brakes), Act.say .carQ,
       Act.say .nameQ, Act.say .zipQ, Act.say .confirmQ] ∧
    (run initState nominalTrace).1.awaitingConfirmation = true ∧
    (run initState nominalTrace).2.length = 6 ∧
    ¬(run initState nominalTrace).2.length = 9 := by
  rw [runNominal]
  exact ⟨rfl, rfl, rfl, by decide⟩

/-- C3 (amended): from the empty DialogueState, absent corrections and
escalation, the questions are asked in the fixed order issue, follow-up,
car, name, zip, confirm (there is no phone, urgency, or drivable
question), and a question is only ever asked while its step is still
unsatisfied: the issue/car/name/zip questions only while the
corresponding slot is empty, the follow-up exactly when `askedFollowup`
flips from false to true, and the confirmation question only when the
session is neither confirmed nor already awaiting confirmation. -/
theorem c3_question_order :
    run initState nominalTrace =
      (nomSt6,
       [Act.say .issueQ, Act.say (.followupQ .brakes), Act.say .carQ,
        Act.say .nameQ, Act.say .zipQ, Act.say .confirmQ]) ∧
    (∀ (s : DState) (i : Inp), Act.say .issueQ ∈ (stepSession s i).2 →
      (stepSession s i).1.issueText = "") ∧
    (∀ (s : DState) (i : Inp) (c : Cat),
      Act.say (.followupQ c) ∈ (stepSession s i).2 →
      s.askedFollowup = false ∧ (stepSession s i).1.askedFollowup = true) ∧
    (∀ (s : DState) (i : Inp), Act.say .carQ ∈ (stepSession s i).2 →
      (stepSession s i).1.carMakeModel = "") ∧
    (∀ (s : DState) (i : Inp), Act.say .nameQ ∈ (stepSession s i).2 →
      (stepSession s i).1.name = "") ∧
    (∀ (s : DState) (i : Inp), Act.say .zipQ ∈ (stepSession s i).2 →
      (stepSession s i).1.zip = "") ∧
    (∀ (s : DState) (i : Inp), Act.say .confirmQ ∈ (stepSession s i).2 →
      s.confirmed = false ∧ s.awaitingConfirmation = false ∧
        (stepSession s i).1.awaitingConfirmation = true) := by
  refine ⟨runNominal, ?_, ?_, ?_, ?_, ?_, ?_⟩
  · intro s i h
    simp only [stepSession] at h ⊢
    split_ifs at h ⊢ with htr
    · simp at h
    · simp only [drainStep] at h ⊢
      split_ifs at h ⊢ with hwant hcorr hconf
      · simp [transferBranch] at h
      · exact absurd (correctionBranch_say_mem _ _ _ h) (by simp)
      · exact absurd (confirmBranch_say_mem _ _ _ h) (by simp)
      · rw [cascade_issueText]
        simpa using cascade_mem_issueQ _ h
  · intro s i c h
    simp only [stepSession] at h ⊢
    split_ifs at h ⊢ with htr
    · simp at h
    · simp only [drainStep] at h ⊢
      split_ifs at h ⊢ with hwant hcorr hconf
      · simp [transferBranch] at h
      · exact absurd (correctionBranch_say_mem _ _ _ h) (by simp)
      · exact absurd (confirmBranch_say_mem _ _ _ h) (by simp)
      · have hc := cascade_mem_followupQ _ c h
        refine ⟨?_, hc.2⟩
        have := hc.1
        simpa using this
  · intro s i h
    simp only [stepSession] at h ⊢
    split_ifs at h ⊢ with htr
    · simp at h
    · simp only [drainStep] at h ⊢
      split_ifs at h ⊢ with hwant hcorr hconf
      · simp [transferBranch] at h
      · exact absurd (correctionBranch_say_mem _ _ _ h) (by simp)
      · exact absurd (confirmBranch_say_mem _ _ _ h) (by simp)
      · rw [cascade_carMakeModel]
        simpa using cascade_mem_carQ _ h
  · intro s i h
    simp only [stepSession] at h ⊢
    split_ifs at h ⊢ with htr
    · simp at h
    · simp only [drainStep] at h ⊢
      split_ifs at h ⊢ with hwant hcorr hconf
      · simp [transferBranch] at h
      · exact absurd (correctionBranch_say_mem _ _ _ h) (by simp)
      · exact absurd (confirmBranch_say_mem _ _ _ h) (by simp)
      · rw [cascade_name]
        simpa using cascade_mem_nameQ _ h
  · intro s i h
    simp only [stepSession] at h ⊢
    split_ifs at h ⊢ with htr
    · simp at h
    · simp only [drainStep] at h ⊢
      split_ifs at h ⊢ with hwant hcorr hconf
      · simp [transferBranch] at h
      · exact absurd (correctionBranch_say_mem _ _ _ h) (by simp)
      · exact absurd (confirmBranch_say_mem _ _ _ h) (by simp)
      · rw [cascade_zip]
        simpa using cascade_mem_zipQ _ h
  · intro s i h
    simp only [stepSession] at h ⊢
    split_ifs at h ⊢ with htr
    · simp at h
    · simp only [drainStep] at h ⊢
      split_ifs at h ⊢ with hwant hcorr hconf
      · simp [transferBranch] at h
      · exact absurd (correctionBranch_say_mem _ _ _ h) (by simp)
      · exact absurd (confirmBranch_say_mem _ _ _ h) (by simp)
      · have hc := cascade_mem_confirmQ _ h
        refine ⟨?_, ?_, hc.2.2⟩
        · have := hc.1
          simpa using this
        · have := hc.2.1
          simpa using this

/-- Witness for C3: the issue question asked on a fresh session leaves
the issue slot unsatisfied, and the confirmation question asked after the
ZIP arrives enters the awaiting-confirmation state. -/
theorem c3_question_order_witness :
    (stepSession initState ⟨"hello", false⟩).1.issueText = "" ∧
    (stepSession nomSt5 ⟨"02321", false⟩).1.awaitingConfirmation = true := by
  exact ⟨c3_question_order.2.1 initState ⟨"hello", false⟩ (by decide),
    (c3_question_order.2.2.2.2.2.2 nomSt5 ⟨"02321", false⟩
      (by decide)).2.2⟩

/-- Value of a correctable slot. -/
def slotVal (s : DState) : CField → String
  | .zip => s.zip
  | .name => s.name
  | .car => s.carMakeModel
  | .issue => s.issueText

/-- Dialogue step on which a correctable slot is collected. -/
def stepOfField : CField → Step
  | .zip => .zip
  | .name => .name
  | .car => .car
  | .issue => .issue

theorem ready_iff (s : DState) :
    readyToConfirm s = true ↔
      s.issueText ≠ "" ∧ s.carMakeModel ≠ "" ∧ s.name ≠ "" ∧
        s.zip ≠ "" := by
  simp only [readyToConfirm, Bool.and_eq_true, ne_eq, decide_not,
    Bool.not_eq_true, decide_eq_false_iff_not, Bool.not_eq_eq_eq_not,
    Bool.not_true, decide_eq_false_iff_not]
  tauto

/-- Inductive invariant of the reachable session states: the bookkeeping
flags of the correction, follow-up and confirmation sub-dialogues are
mutually consistent. -/
def Inv (s : DState) : Prop :=
  (∀ f, s.correctingField = some f →
    slotVal s f = "" ∧ s.currentStep = stepOfField f ∧
    s.askedFollowup = true ∧ s.awaitingFollowupResponse = false ∧
    s.awaitingConfirmation = false ∧ s.awaitingCorrectionChoice = false ∧
    (∀ g, g ≠ f → slotVal s g ≠ "")) ∧
  (s.awaitingFollowupResponse = true →
    s.carMakeModel = "" ∧ s.issueText ≠ "" ∧ s.askedFollowup = true ∧
    (s.currentStep = Step.followup ∨ s.currentStep = Step.car) ∧
    s.awaitingConfirmation = false ∧
    s.awaitingCorrectionChoice = false) ∧
  (s.awaitingConfirmation = true →
    readyToConfirm s = true ∧ s.askedFollowup = true ∧
    s.awaitingCorrectionChoice = false ∧ s.currentStep = Step.confirm) ∧
  (s.awaitingCorrectionChoice = true →
    s.awaitingConfirmation = false ∧ s.awaitingFollowupResponse = false ∧
    readyToConfirm s = true ∧ s.askedFollowup = true) ∧
  (s.askedFollowup = false →
    s.currentStep = Step.issue ∧ s.carMakeModel = "" ∧ s.name = "" ∧
    s.zip = "" ∧ s.awaitingFollowupResponse = false ∧
    s.awaitingConfirmation = false ∧ s.awaitingCorrectionChoice = false ∧
    s.correctingField = none)

theorem inv_init : Inv initState := by
  refine ⟨?_, ?_, ?_, ?_, ?_⟩ <;> intro h <;> simp_all [initState, Inv]

theorem applyZip_id (s : DState) (t : String)
    (h : ¬(s.currentStep = Step.zip ∧ s.zip = "")) : applyZip s t = s := by
  unfold applyZip
  rw [if_neg h]

theorem applyName_id (s : DState) (t : String)
    (h : ¬(s.currentStep = Step.name ∧ s.name = "")) :
    applyName s t = s := by
  unfold applyName
  rw [if_neg h]

theorem applyCar_id (s : DState) (t : String)
    (h : ¬s.currentStep = Step.car) : applyCar s t = s := by
  unfold applyCar
  dsimp only
  rw [if_neg (fun hc : s.currentStep = Step.car ∧ s.carYear = "" =>
        h hc.1)]
  rw [if_neg (fun hc => h hc.1)]

theorem applyIssue_id (s : DState) (t : String)
    (h : ¬(s.currentStep = Step.issue ∧ s.issueText = "")) :
    applyIssue s t = s := by
  unfold applyIssue
  rw [if_neg h]

theorem extractPhase_zipstep (s : DState) (t : String)
    (hAF : s.awaitingFollowupResponse = false)
    (hstep : s.currentStep = Step.zip) :
    extractPhase s t = applyZip s t := by
  unfold extractPhase
  rw [applyFollowup_id s t hAF]
  rw [applyName_id _ t (by simp [applyZip_currentStep, hstep]),
      applyCar_id _ t (by simp [applyZip_currentStep, hstep]),
      applyIssue_id _ t (by simp [applyZip_currentStep, hstep])]

theorem extractPhase_namestep (s : DState) (t : String)
    (hAF : s.awaitingFollowupResponse = false)
    (hstep : s.currentStep = Step.name) :
    extractPhase s t = applyName s t := by
  unfold extractPhase
  rw [applyFollowup_id s t hAF]
  rw [applyZip_id _ t (by simp [hstep]),
      applyCar_id _ t (by simp [applyName_currentStep, hstep]),
      applyIssue_id _ t (by simp [applyName_currentStep, hstep])]

theorem extractPhase_carstep (s : DState) (t : String)
    (hAF : s.awaitingFollowupResponse = false)
    (hstep : s.currentStep = Step.car) :
    extractPhase s t = applyCar s t := by
  unfold extractPhase
  rw [applyFollowup_id s t hAF]
  rw [applyZip_id _ t (by simp [hstep]),
      applyName_id _ t (by simp [hstep]),
      applyIssue_id _ t (by simp [applyCar_currentStep, hstep])]

theorem extractPhase_issuestep (s : DState) (t : String)
    (hAF : s.awaitingFollowupResponse = false)
    (hstep : s.currentStep = Step.issue) :
    extractPhase s t = applyIssue s t := by
  unfold extractPhase
  rw [applyFollowup_id s t hAF]
  rw [applyZip_id _ t (by simp [hstep]),
      applyName_id _ t (by simp [hstep]),
      applyCar_id _ t (by simp [hstep])]

theorem extractPhase_otherstep (s : DState) (t : String)
    (hAF : s.awaitingFollowupResponse = false)
    (hstep : ¬s.currentStep = Step.zip) (h2 : ¬s.currentStep = Step.name)
    (h3 : ¬s.currentStep = Step.car)
    (h4 : ¬s.currentStep = Step.issue) :
    extractPhase s t = s := by
  unfold extractPhase
  rw [applyFollowup_id s t hAF]
  rw [applyZip_id _ t (by simp [hstep]),
      applyName_id _ t (by simp [h2]),
      applyCar_id _ t (by simp [h3]),
      applyIssue_id _ t (by simp [h4])]

theorem collapseAux_length (b : Bool) (l : List Char) :
    (collapseAux b l).length ≤ l.length := by
  induction l generalizing b with
  | nil => simp [collapseAux]
  | cons c cs ih =>
    unfold collapseAux
    split_ifs <;> simp only [List.length_cons] <;>
      first
        | exact Nat.le_succ_of_le (ih true)
        | exact Nat.succ_le_succ (ih true)
        | exact Nat.succ_le_succ (ih false)

theorem dropWhile_length (p : Char → Bool) (l : List Char) :
    (l.dropWhile p).length ≤ l.length := by
  induction l with
  | nil => simp
  | cons c cs ih =>
    rw [List.dropWhile_cons]
    split_ifs
    · exact Nat.le_succ_of_le ih
    · simp

theorem trimChars_length (l : List Char) :
    (trimChars l).length ≤ l.length := by
  unfold trimChars
  calc ((l.dropWhile isSpaceC).reverse.dropWhile isSpaceC).reverse.length
      = ((l.dropWhile isSpaceC).reverse.dropWhile isSpaceC).length := by
        simp
    _ ≤ (l.dropWhile isSpaceC).reverse.length :=
        dropWhile_length _ _
    _ = (l.dropWhile isSpaceC).length := by simp
    _ ≤ l.length := dropWhile_length _ _

theorem carCleaned_length (t : String) :
    (carCleaned t).length ≤ t.data.length := by
  unfold carCleaned collapseSpaces
  calc (trimChars (collapseAux false (t.data.map _))).length
      ≤ (collapseAux false (t.data.map
          (fun c => if isWordC c || isSpaceC c then c else ' '))).length :=
        trimChars_length _
    _ ≤ (t.data.map
          (fun c => if isWordC c || isSpaceC c then c else ' ')).length :=
        collapseAux_length _ _
    _ = t.data.length := List.length_map _ _

theorem extractCarMakeModel_short (t : String)
    (h : t.data.length < 6) : extractCarMakeModel t = "" := by
  unfold extractCarMakeModel
  rw [if_pos (Nat.lt_of_le_of_lt (carCleaned_length t) h)]

/-- Result state of the correction-choice branch for each chosen field
(definitionally equal to the records built in `correctionBranch`). -/
def corrSet (s : DState) : CField → DState
  | .zip => { s with correctingField := some .zip, zip := "",
                     currentStep := .zip, awaitingCorrectionChoice := false }
  | .name => { s with correctingField := some .name, name := "",
                      currentStep := .name,
                      awaitingCorrectionChoice := false }
  | .car => { s with correctingField := some .car, carMakeModel := "",
                     carYear := "", currentStep := .car,
                     awaitingCorrectionChoice := false }
  | .issue => { s with correctingField := some .issue, issueText := "",
                       currentStep := .issue,
                       awaitingCorrectionChoice := false }

theorem inv_corrSet (s : DState) (f : CField)
    (hAF : s.awaitingFollowupResponse = false)
    (hAC : s.awaitingConfirmation = false)
    (hask : s.askedFollowup = true)
    (hready : readyToConfirm s = true) : Inv (corrSet s f) := by
  obtain ⟨hri, hrc, hrn, hrz⟩ := (ready_iff s).mp hready
  cases f <;>
    refine ⟨?_, ?_, ?_, ?_, ?_⟩ <;>
    first
      | (rintro g hg
         simp only [corrSet, Option.some.injEq] at hg
         subst hg
         refine ⟨rfl, rfl, hask, hAF, hAC, rfl, ?_⟩
         rintro g hgne
         cases g <;> simp_all [slotVal, corrSet])
      | (intro hx
         simp only [corrSet] at hx
         simp_all)

theorem applyCar_cf_cases (s : DState) (t : String) :
    ((applyCar s t).correctingField = s.correctingField ∧
      (applyCar s t).carMakeModel = s.carMakeModel) ∨
    (applyCar s t).correctingField = none := by
  unfold applyCar
  dsimp only
  split_ifs <;> simp

theorem applyCar_mm_of_empty (s : DState) (t : String)
    (h : extractCarMakeModel t = "") :
    (applyCar s t).carMakeModel = s.carMakeModel := by
  unfold applyCar
  dsimp only
  split_ifs <;> simp_all

theorem append_dot_ne (a t : String) : a ++ ". " ++ t ≠ "" := by
  intro h
  have hd : (a ++ ". " ++ t).data = a.data ++ (". ").data ++ t.data := by
    simp [String.data_append]
  rw [h] at hd
  have : ([] : List Char) = a.data ++ (". ").data ++ t.data := hd
  rcases List.append_eq_nil.mp this.symm with ⟨h1, _⟩
  rcases List.append_eq_nil.mp h1 with ⟨_, h3⟩
  simp at h3

theorem extractPhase_followupOn (s : DState) (t : String)
    (hAF : s.awaitingFollowupResponse = true)
    (hlen : 3 < t.data.length) :
    extractPhase s t =
      applyCar { s with issueText := s.issueText ++ ". " ++ t,
                        awaitingFollowupResponse := false,
                        currentStep := Step.car } t := by
  unfold extractPhase
  have hf : applyFollowup s t =
      { s with issueText := s.issueText ++ ". " ++ t,
               awaitingFollowupResponse := false,
               currentStep := Step.car } := by
    unfold applyFollowup
    rw [if_pos ⟨hAF, by simpa using hlen⟩]
  rw [hf]
  rw [applyZip_id _ t (by simp), applyName_id _ t (by simp),
      applyIssue_id _ t (by simp [applyCar_currentStep])]

theorem extractPhase_followupShort (s : DState) (t : String)
    (hAF : s.awaitingFollowupResponse = true)
    (hlen : ¬3 < t.data.length)
    (hstep : s.currentStep = Step.followup ∨ s.currentStep = Step.car) :
    extractPhase s t = s ∨
      (s.currentStep = Step.car ∧ extractPhase s t = applyCar s t) := by
  have hf : applyFollowup s t = s := by
    unfold applyFollowup
    rw [if_neg]
    rintro ⟨_, hl⟩
    exact hlen (by simpa using hl)
  rcases hstep with hstep | hstep
  · left
    unfold extractPhase
    rw [hf]
    rw [applyZip_id _ t (by simp [hstep]),
        applyName_id _ t (by simp [hstep]),
        applyCar_id _ t (by simp [hstep]),
        applyIssue_id _ t (by simp [hstep])]
  · right
    refine ⟨hstep, ?_⟩
    unfold extractPhase
    rw [hf]
    rw [applyZip_id _ t (by simp [hstep]),
        applyName_id _ t (by simp [hstep]),
        applyIssue_id _ t (by simp [applyCar_currentStep, hstep])]

theorem inv_extract (s : DState) (t : String) (h : Inv s)
    (hcorr : s.awaitingCorrectionChoice = false) :
    Inv (extractPhase s t) := by
  obtain ⟨h1, h2, h3, h4, h5⟩ := h
  by_cases hAF : s.awaitingFollowupResponse = true
  · obtain ⟨hmm, hit, hask, hstep, hac, -⟩ := h2 hAF
    have hcf : s.correctingField = none := by
      cases hc : s.correctingField with
      | none => rfl
      | some f => exact absurd (h1 f hc).2.2.2.1 (by simp [hAF])
    by_cases hlen : 3 < t.data.length
    · rw [extractPhase_followupOn s t hAF hlen]
      set X : DState :=
        { s with issueText := s.issueText ++ ". " ++ t,
                 awaitingFollowupResponse := false,
                 currentStep := Step.car } with hX
      refine ⟨?_, ?_, ?_, ?_, ?_⟩
      · rintro g hg
        rcases applyCar_cf_cases X t with ⟨hc1, -⟩ | hc1
        · rw [hc1] at hg
          simp [hX, hcf] at hg
        · rw [hc1] at hg
          simp at hg
      · intro hx
        rw [applyCar_awaitingFollowupResponse] at hx
        simp [hX] at hx
      · intro hx
        rw [applyCar_awaitingConfirmation] at hx
        simp only [hX] at hx
        exact absurd hx (by simp [hac])
      · intro hx
        rw [applyCar_awaitingCorrectionChoice] at hx
        simp only [hX] at hx
        exact absurd hx (by simp [hcorr])
      · intro hx
        rw [applyCar_askedFollowup] at hx
        simp only [hX] at hx
        exact absurd hx (by simp [hask])
    · rcases extractPhase_followupShort s t hAF hlen hstep with
        heq | ⟨hstepcar, heq⟩
      · rw [heq]
        exact ⟨h1, h2, h3, h4, h5⟩
      · rw [heq]
        have hmm0 : extractCarMakeModel t = "" :=
          extractCarMakeModel_short t (by omega)
        refine ⟨?_, ?_, ?_, ?_, ?_⟩
        · rintro g hg
          rcases applyCar_cf_cases s t with ⟨hc1, -⟩ | hc1
          · rw [hc1, hcf] at hg
            simp at hg
          · rw [hc1] at hg
            simp at hg
        · intro hx
          refine ⟨?_, ?_, ?_, ?_, ?_, ?_⟩
          · rw [applyCar_mm_of_empty s t hmm0]
            exact hmm
          · rw [applyCar_issueText]
            exact hit
          · rw [applyCar_askedFollowup]
            exact hask
          · rw [applyCar_currentStep]
            exact .inr hstepcar
          · rw [applyCar_awaitingConfirmation]
            exact hac
          · rw [applyCar_awaitingCorrectionChoice]
            exact hcorr
        · intro hx
          rw [applyCar_awaitingConfirmation] at hx
          exact absurd hx (by simp [hac])
        · intro hx
          rw [applyCar_awaitingCorrectionChoice] at hx
          exact absurd hx (by simp [hcorr])
        · intro hx
          rw [applyCar_askedFollowup] at hx
          exact absurd hx (by simp [hask])
  · replace hAF : s.awaitingFollowupResponse = false := by
      simpa using hAF
    cases hscur : s.currentStep with
    | issue =>
      rw [extractPhase_issuestep s t hAF hscur]
      unfold applyIssue
      split_ifs with g1 g2
      · refine ⟨?_, ?_, ?_, ?_, ?_⟩
        · rintro g hg
          dsimp only at hg
          simp at hg
        · intro hx
          dsimp only at hx
          exact absurd hx (by simp [hAF])
        · intro hx
          dsimp only at hx
          exact absurd ((h3 hx).2.2.2) (by simp [hscur])
        · intro hx
          dsimp only at hx
          exact absurd hx (by simp [hcorr])
        · intro hx
          dsimp only at hx
          obtain ⟨-, hb, hc, hd, -, hf2, -, -⟩ := h5 hx
          exact ⟨by simpa using hscur, by simpa using hb, by simpa using hc,
            by simpa using hd, by simpa using hAF, by simpa using hf2,
            by simpa using hcorr, rfl⟩
      · exact ⟨h1, h2, h3, h4, h5⟩
      · exact ⟨h1, h2, h3, h4, h5⟩
    | followup =>
      rw [extractPhase_otherstep s t hAF (by simp [hscur]) (by simp [hscur])
        (by simp [hscur]) (by simp [hscur])]
      exact ⟨h1, h2, h3, h4, h5⟩
    | car =>
      rw [extractPhase_carstep s t hAF hscur]
      refine ⟨?_, ?_, ?_, ?_, ?_⟩
      · rintro g hg
        rcases applyCar_cf_cases s t with ⟨hc1, hc2⟩ | hc1
        · rw [hc1] at hg
          have hI := h1 g hg
          have hgcar : g = CField.car := by
            have hst := hI.2.1
            rw [hscur] at hst
            cases g with
            | car => rfl
            | zip => simp [stepOfField] at hst
            | name => simp [stepOfField] at hst
            | issue => simp [stepOfField] at hst
          subst hgcar
          refine ⟨?_, ?_, ?_, ?_, ?_, ?_, ?_⟩
          · show (applyCar s t).carMakeModel = ""
            rw [hc2]
            exact hI.1
          · rw [applyCar_currentStep]
            exact hI.2.1
          · rw [applyCar_askedFollowup]
            exact hI.2.2.1
          · rw [applyCar_awaitingFollowupResponse]
            exact hI.2.2.2.1
          · rw [applyCar_awaitingConfirmation]
            exact hI.2.2.2.2.1
          · rw [applyCar_awaitingCorrectionChoice]
            exact hI.2.2.2.2.2.1
          · rintro g' hne
            have hsv := hI.2.2.2.2.2.2 g' hne
            cases g' with
            | car => exact absurd rfl hne
            | zip =>
              show (applyCar s t).zip ≠ ""
              rw [applyCar_zip]
              exact hsv
            | name =>
              show (applyCar s t).name ≠ ""
              rw [applyCar_name]
              exact hsv
            | issue =>
              show (applyCar s t).issueText ≠ ""
              rw [applyCar_issueText]
              exact hsv
        · rw [hc1] at hg
          simp at hg
      · intro hx
        rw [applyCar_awaitingFollowupResponse] at hx
        exact absurd hx (by simp [hAF])
      · intro hx
        rw [applyCar_awaitingConfirmation] at hx
        exact absurd ((h3 hx).2.2.2) (by simp [hscur])
      · intro hx
        rw [applyCar_awaitingCorrectionChoice] at hx
        exact absurd hx (by simp [hcorr])
      · intro hx
        rw [applyCar_askedFollowup] at hx
        exact absurd (h5 hx).1 (by simp [hscur])
    | name =>
      rw [extractPhase_namestep s t hAF hscur]
      unfold applyName
      split_ifs with g1 g2
      · refine ⟨?_, ?_, ?_, ?_, ?_⟩
        · rintro g hg
          dsimp only at hg
          simp at hg
        · intro hx
          dsimp only at hx
          exact absurd hx (by simp [hAF])
        · intro hx
          dsimp only at hx
          exact absurd ((h3 hx).2.2.2) (by simp [hscur])
        · intro hx
          dsimp only at hx
          exact absurd hx (by simp [hcorr])
        · intro hx
          dsimp only at hx
          exact absurd (h5 hx).1 (by simp [hscur])
      · exact ⟨h1, h2, h3, h4, h5⟩
      · exact ⟨h1, h2, h3, h4, h5⟩
    | zip =>
      rw [extractPhase_zipstep s t hAF hscur]
      unfold applyZip
      split_ifs with g1 g2
      · refine ⟨?_, ?_, ?_, ?_, ?_⟩
        · rintro g hg
          dsimp only at hg
          simp at hg
        · intro hx
          dsimp only at hx
          exact absurd hx (by simp [hAF])
        · intro hx
          dsimp only at hx
          exact absurd ((h3 hx).2.2.2) (by simp [hscur])
        · intro hx
          dsimp only at hx
          exact absurd hx (by simp [hcorr])
        · intro hx
          dsimp only at hx
          exact absurd (h5 hx).1 (by simp [hscur])
      · exact ⟨h1, h2, h3, h4, h5⟩
      · exact ⟨h1, h2, h3, h4, h5⟩
    | confirm =>
      rw [extractPhase_otherstep s t hAF (by simp [hscur]) (by simp [hscur])
        (by simp [hscur]) (by simp [hscur])]
      exact ⟨h1, h2, h3, h4, h5⟩

theorem inv_postConfirm (X : DState) (hI : Inv X)
    (hAC : X.awaitingConfirmation = true) (c l : Bool) :
    Inv { X with confirmed := c, awaitingConfirmation := false,
                 leadCreated := l } := by
  obtain ⟨e1, e2, e3, e4, e5⟩ := hI
  obtain ⟨er, ea, ec, es⟩ := e3 hAC
  refine ⟨?_, ?_, ?_, ?_, ?_⟩
  · rintro g hg
    dsimp only at hg
    exact absurd (e1 g hg).2.2.2.2.1 (by simp [hAC])
  · intro hx
    dsimp only at hx
    exact absurd (e2 hx).2.2.2.2.1 (by simp [hAC])
  · intro hx
    dsimp only at hx
    simp at hx
  · intro hx
    dsimp only at hx
    exact absurd hx (by simp [ec])
  · intro hx
    dsimp only at hx
    exact absurd hx (by simp [ea])

theorem inv_postNo (X : DState) (hI : Inv X)
    (hAC : X.awaitingConfirmation = true) :
    Inv { X with awaitingConfirmation := false,
                 awaitingCorrectionChoice := true } := by
  obtain ⟨e1, e2, e3, e4, e5⟩ := hI
  obtain ⟨er, ea, ec, es⟩ := e3 hAC
  have hAFX : X.awaitingFollowupResponse = false := by
    cases haf : X.awaitingFollowupResponse with
    | false => rfl
    | true => exact absurd (e2 haf).2.2.2.2.1 (by simp [hAC])
  refine ⟨?_, ?_, ?_, ?_, ?_⟩
  · rintro g hg
    dsimp only at hg
    exact absurd (e1 g hg).2.2.2.2.1 (by simp [hAC])
  · intro hx
    dsimp only at hx
    exact absurd (e2 hx).2.2.2.2.1 (by simp [hAC])
  · intro hx
    dsimp only at hx
    simp at hx
  · intro _
    exact ⟨rfl, hAFX, er, ea⟩
  · intro hx
    dsimp only at hx
    exact absurd hx (by simp [ea])

theorem inv_cascade (X : DState) (hI : Inv X)
    (hcorrX : X.awaitingCorrectionChoice = false) :
    Inv (cascade X).1 := by
  obtain ⟨e1, e2, e3, e4, e5⟩ := hI
  unfold cascade
  split_ifs with c1 c2 c3 c4 c5 c6 <;> dsimp only
  · -- issue question
    refine ⟨?_, ?_, ?_, ?_, ?_⟩
    · rintro g hg
      dsimp only at hg
      have hg1 := e1 g hg
      cases g with
      | issue =>
        refine ⟨c1, rfl, hg1.2.2.1, hg1.2.2.2.1, hg1.2.2.2.2.1,
          hg1.2.2.2.2.2.1, ?_⟩
        rintro g' hne
        exact hg1.2.2.2.2.2.2 g' hne
      | zip => exact absurd c1 (hg1.2.2.2.2.2.2 .issue (by simp))
      | name => exact absurd c1 (hg1.2.2.2.2.2.2 .issue (by simp))
      | car => exact absurd c1 (hg1.2.2.2.2.2.2 .issue (by simp))
    · intro hx
      dsimp only at hx
      exact absurd c1 (e2 hx).2.1
    · intro hx
      dsimp only at hx
      exact absurd c1 ((ready_iff X).mp (e3 hx).1).1
    · intro hx
      dsimp only at hx
      exact absurd hx (by simp [hcorrX])
    · intro hx
      dsimp only at hx
      have h5 := e5 hx
      exact ⟨rfl, h5.2.1, h5.2.2.1, h5.2.2.2.1, h5.2.2.2.2.1,
        h5.2.2.2.2.2.1, h5.2.2.2.2.2.2.1, h5.2.2.2.2.2.2.2⟩
  · -- follow-up question
    have h5 := e5 (by simpa using c2.2)
    refine ⟨?_, ?_, ?_, ?_, ?_⟩
    · rintro g hg
      dsimp only at hg
      rw [h5.2.2.2.2.2.2.2] at hg
      simp at hg
    · intro _
      exact ⟨h5.2.1, c2.1, rfl, .inl rfl, h5.2.2.2.2.2.1, hcorrX⟩
    · intro hx
      dsimp only at hx
      exact absurd hx (by simp [h5.2.2.2.2.2.1])
    · intro hx
      dsimp only at hx
      exact absurd hx (by simp [hcorrX])
    · intro hx
      dsimp only at hx
      simp at hx
  · -- car question
    have haskT : X.askedFollowup = true := by
      by_contra hh
      exact c2 ⟨c1, by simpa using hh⟩
    refine ⟨?_, ?_, ?_, ?_, ?_⟩
    · rintro g hg
      dsimp only at hg
      have hg1 := e1 g hg
      cases g with
      | car =>
        refine ⟨c3, rfl, hg1.2.2.1, hg1.2.2.2.1, hg1.2.2.2.2.1,
          hg1.2.2.2.2.2.1, ?_⟩
        rintro g' hne
        exact hg1.2.2.2.2.2.2 g' hne
      | zip => exact absurd c3 (hg1.2.2.2.2.2.2 .car (by simp))
      | name => exact absurd c3 (hg1.2.2.2.2.2.2 .car (by simp))
      | issue => exact absurd c3 (hg1.2.2.2.2.2.2 .car (by simp))
    · intro hx
      dsimp only at hx
      have h2 := e2 hx
      exact ⟨c3, h2.2.1, h2.2.2.1, .inr rfl, h2.2.2.2.2.1, hcorrX⟩
    · intro hx
      dsimp only at hx
      exact absurd c3 ((ready_iff X).mp (e3 hx).1).2.1
    · intro hx
      dsimp only at hx
      exact absurd hx (by simp [hcorrX])
    · intro hx
      dsimp only at hx
      exact absurd hx (by simp [haskT])
  · -- name question
    have haskT : X.askedFollowup = true := by
      by_contra hh
      exact c2 ⟨c1, by simpa using hh⟩
    refine ⟨?_, ?_, ?_, ?_, ?_⟩
    · rintro g hg
      dsimp only at hg
      have hg1 := e1 g hg
      cases g with
      | name =>
        refine ⟨c4, rfl, hg1.2.2.1, hg1.2.2.2.1, hg1.2.2.2.2.1,
          hg1.2.2.2.2.2.1, ?_⟩
        rintro g' hne
        exact hg1.2.2.2.2.2.2 g' hne
      | zip => exact absurd c4 (hg1.2.2.2.2.2.2 .name (by simp))
      | car => exact absurd c4 (hg1.2.2.2.2.2.2 .name (by simp))
      | issue => exact absurd c4 (hg1.2.2.2.2.2.2 .name (by simp))
    · intro hx
      dsimp only at hx
      exact absurd (e2 hx).1 c3
    · intro hx
      dsimp only at hx
      exact absurd c4 ((ready_iff X).mp (e3 hx).1).2.2.1
    · intro hx
      dsimp only at hx
      exact absurd hx (by simp [hcorrX])
    · intro hx
      dsimp only at hx
      exact absurd hx (by simp [haskT])
  · -- zip question
    have haskT : X.askedFollowup = true := by
      by_contra hh
      exact c2 ⟨c1, by simpa using hh⟩
    refine ⟨?_, ?_, ?_, ?_, ?_⟩
    · rintro g hg
      dsimp only at hg
      have hg1 := e1 g hg
      cases g with
      | zip =>
        refine ⟨c5, rfl, hg1.2.2.1, hg1.2.2.2.1, hg1.2.2.2.2.1,
          hg1.2.2.2.2.2.1, ?_⟩
        rintro g' hne
        exact hg1.2.2.2.2.2.2 g' hne
      | name => exact absurd c5 (hg1.2.2.2.2.2.2 .zip (by simp))
      | car => exact absurd c5 (hg1.2.2.2.2.2.2 .zip (by simp))
      | issue => exact absurd c5 (hg1.2.2.2.2.2.2 .zip (by simp))
    · intro hx
      dsimp only at hx
      exact absurd (e2 hx).1 c3
    · intro hx
      dsimp only at hx
      exact absurd c5 ((ready_iff X).mp (e3 hx).1).2.2.2
    · intro hx
      dsimp only at hx
      exact absurd hx (by simp [hcorrX])
    · intro hx
      dsimp only at hx
      exact absurd hx (by simp [haskT])
  · -- confirmation question
    have haskT : X.askedFollowup = true := by
      by_contra hh
      exact c2 ⟨c1, by simpa using hh⟩
    have hrd := (ready_iff X).mp c6.1
    refine ⟨?_, ?_, ?_, ?_, ?_⟩
    · rintro g hg
      dsimp only at hg
      have hg1 := e1 g hg
      cases g with
      | zip => exact absurd hg1.1 hrd.2.2.2
      | name => exact absurd hg1.1 hrd.2.2.1
      | car => exact absurd hg1.1 hrd.2.1
      | issue => exact absurd hg1.1 hrd.1
    · intro hx
      dsimp only at hx
      exact absurd (e2 hx).1 c3
    · intro _
      exact ⟨c6.1, haskT, hcorrX, rfl⟩
    · intro hx
      dsimp only at hx
      exact absurd hx (by simp [hcorrX])
    · intro hx
      dsimp only at hx
      exact absurd hx (by simp [haskT])
  · -- GPT fallback
    exact ⟨e1, e2, e3, e4, e5⟩

theorem inv_step (s : DState) (i : Inp) (h : Inv s) :
    Inv (stepSession s i).1 := by
  simp only [stepSession]
  split_ifs with htr
  · exact h
  · simp only [drainStep]
    split_ifs with hwant hcorr hconf
    · exact h
    · have hc := h.2.2.2.1 hcorr
      unfold correctionBranch
      dsimp only
      split_ifs with z1 z2 z3 z4
      · exact inv_corrSet s .zip hc.2.1 hc.1 hc.2.2.2 hc.2.2.1
      · exact inv_corrSet s .name hc.2.1 hc.1 hc.2.2.2 hc.2.2.1
      · exact inv_corrSet s .car hc.2.1 hc.1 hc.2.2.2 hc.2.2.1
      · exact inv_corrSet s .issue hc.2.1 hc.1 hc.2.2.2 hc.2.2.1
      · exact h
    · have hcorr2 : s.awaitingCorrectionChoice = false := by
        simpa using hcorr
      have hE := inv_extract s i.text h hcorr2
      unfold confirmBranch
      dsimp only
      split_ifs with hyes hlead hok hno
      · exact inv_postConfirm _ hE hconf.1 true
          (extractPhase s i.text).leadCreated
      · exact inv_postConfirm _ hE hconf.1 true true
      · exact inv_postConfirm _ hE hconf.1 true
          (extractPhase s i.text).leadCreated
      · exact inv_postNo _ hE hconf.1
      · exact hE
    · have hcorr2 : s.awaitingCorrectionChoice = false := by
        simpa using hcorr
      have hE := inv_extract s i.text h hcorr2
      exact inv_cascade _ hE
        (by rw [extractPhase_awaitingCorrectionChoice]; exact hcorr2)

theorem inv_run (inps : List Inp) :
    ∀ s : DState, Inv s → Inv (run s inps).1 := by
  induction inps with
  | nil => intro s hs; exact hs
  | cons i is ih =>
    intro s hs
    exact ih _ (inv_step s i hs)

theorem applyCar_mm_ne (s : DState) (t : String)
    (h : s.carMakeModel ≠ "") :
    (applyCar s t).carMakeModel = s.carMakeModel := by
  unfold applyCar
  dsimp only
  split_ifs <;> simp_all

theorem applyName_ne (s : DState) (t : String) (h : s.name ≠ "") :
    (applyName s t).name = s.name := by
  unfold applyName
  split_ifs <;> simp_all

theorem applyZip_ne (s : DState) (t : String) (h : s.zip ≠ "") :
    (applyZip s t).zip = s.zip := by
  unfold applyZip
  split_ifs <;> simp_all

theorem applyIssue_ne (s : DState) (t : String) (h : s.issueText ≠ "") :
    (applyIssue s t).issueText = s.issueText := by
  unfold applyIssue
  split_ifs <;> simp_all

theorem extractPhase_carMM_ne (s : DState) (t : String)
    (h : s.carMakeModel ≠ "") :
    (extractPhase s t).carMakeModel = s.carMakeModel := by
  unfold extractPhase
  rw [applyIssue_carMakeModel, applyCar_mm_ne _ t (by simpa using h)]
  simp

theorem extractPhase_name_ne (s : DState) (t : String)
    (h : s.name ≠ "") : (extractPhase s t).name = s.name := by
  unfold extractPhase
  rw [applyIssue_name, applyCar_name, applyName_ne _ t (by simpa using h)]
  simp

theorem extractPhase_zip_ne (s : DState) (t : String) (h : s.zip ≠ "") :
    (extractPhase s t).zip = s.zip := by
  unfold extractPhase
  rw [applyIssue_zip, applyCar_zip, applyName_zip,
      applyZip_ne _ t (by simpa using h)]
  simp

theorem extractPhase_issueText_changes (s : DState) (t : String)
    (h : s.issueText ≠ "") :
    (extractPhase s t).issueText = s.issueText ∨
      (s.awaitingFollowupResponse = true ∧
        (extractPhase s t).issueText = s.issueText ++ ". " ++ t) := by
  by_cases hc : s.awaitingFollowupResponse = true ∧ 3 < t.data.length
  · right
    refine ⟨hc.1, ?_⟩
    unfold extractPhase
    have hf : applyFollowup s t =
        { s with issueText := s.issueText ++ ". " ++ t,
                 awaitingFollowupResponse := false,
                 currentStep := Step.car } := by
      unfold applyFollowup
      rw [if_pos ⟨hc.1, by simpa using hc.2⟩]
    rw [hf, applyIssue_ne _ t (by simpa using append_dot_ne s.issueText t)]
    simp
  · left
    unfold extractPhase
    have hf : applyFollowup s t = s := by
      unfold applyFollowup
      rw [if_neg]
      rintro ⟨ha, hb⟩
      exact hc ⟨ha, by simpa using hb⟩
    rw [hf, applyIssue_ne _ t (by simpa using h)]
    simp

theorem step_carMM (s : DState) (i : Inp) (h : s.carMakeModel ≠ "") :
    (stepSession s i).1.carMakeModel = s.carMakeModel ∨
      ((stepSession s i).1.carMakeModel = "" ∧
        s.awaitingCorrectionChoice = true ∧
        (stepSession s i).1.correctingField = some CField.car) := by
  simp only [stepSession]
  split_ifs with htr
  · exact .inl rfl
  · simp only [drainStep]
    split_ifs with hwant hcorr hconf
    · exact .inl rfl
    · unfold correctionBranch
      dsimp only
      split_ifs
      · exact .inl rfl
      · exact .inl rfl
      · exact .inr ⟨rfl, hcorr, rfl⟩
      · exact .inl rfl
      · exact .inl rfl
    · left
      rw [confirmBranch_carMakeModel]
      exact extractPhase_carMM_ne s i.text h
    · left
      rw [cascade_carMakeModel]
      exact extractPhase_carMM_ne s i.text h

theorem step_name (s : DState) (i : Inp) (h : s.name ≠ "") :
    (stepSession s i).1.name = s.name ∨
      ((stepSession s i).1.name = "" ∧
        s.awaitingCorrectionChoice = true ∧
        (stepSession s i).1.correctingField = some CField.name) := by
  simp only [stepSession]
  split_ifs with htr
  · exact .inl rfl
  · simp only [drainStep]
    split_ifs with hwant hcorr hconf
    · exact .inl rfl
    · unfold correctionBranch
      dsimp only
      split_ifs
      · exact .inl rfl
      · exact .inr ⟨rfl, hcorr, rfl⟩
      · exact .inl rfl
      · exact .inl rfl
      · exact .inl rfl
    · left
      rw [confirmBranch_name]
      exact extractPhase_name_ne s i.text h
    · left
      rw [cascade_name]
      exact extractPhase_name_ne s i.text h

theorem step_zip (s : DState) (i : Inp) (h : s.zip ≠ "") :
    (stepSession s i).1.zip = s.zip ∨
      ((stepSession s i).1.zip = "" ∧
        s.awaitingCorrectionChoice = true ∧
        (stepSession s i).1.correctingField = some CField.zip) := by
  simp only [stepSession]
  split_ifs with htr
  · exact .inl rfl
  · simp only [drainStep]
    split_ifs with hwant hcorr hconf
    · exact .inl rfl
    · unfold correctionBranch
      dsimp only
      split_ifs
      · exact .inr ⟨rfl, hcorr, rfl⟩
      · exact .inl rfl
      · exact .inl rfl
      · exact .inl rfl
      · exact .inl rfl
    · left
      rw [confirmBranch_zip]
      exact extractPhase_zip_ne s i.text h
    · left
      rw [cascade_zip]
      exact extractPhase_zip_ne s i.text h

theorem step_issueText (s : DState) (i : Inp) (h : s.issueText ≠ "") :
    (stepSession s i).1.issueText = s.issueText ∨
      ((stepSession s i).1.issueText = "" ∧
        s.awaitingCorrectionChoice = true ∧
        (stepSession s i).1.correctingField = some CField.issue) ∨
      (s.awaitingFollowupResponse = true ∧
        (stepSession s i).1.issueText = s.issueText ++ ". " ++ i.text) := by
  simp only [stepSession]
  split_ifs with htr
  · exact .inl rfl
  · simp only [drainStep]
    split_ifs with hwant hcorr hconf
    · exact .inl rfl
    · unfold correctionBranch
      dsimp only
      split_ifs
      · exact .inl rfl
      · exact .inl rfl
      · exact .inl rfl
      · exact .inr (.inl ⟨rfl, hcorr, rfl⟩)
      · exact .inl rfl
    · rcases extractPhase_issueText_changes s i.text h with he | ⟨haf, he⟩
      · left
        rw [confirmBranch_issueText, he]
      · exact .inr (.inr ⟨haf, by rw [confirmBranch_issueText, he]⟩)
    · rcases extractPhase_issueText_changes s i.text h with he | ⟨haf, he⟩
      · left
        rw [cascade_issueText, he]
      · exact .inr (.inr ⟨haf, by rw [cascade_issueText, he]⟩)

theorem correcting_only_slot (s : DState) (hInv : Inv s) (f : CField)
    (hf : s.correctingField = some f) :
    slotVal s f = "" ∧
    ∀ (i : Inp) (g : CField), g ≠ f →
      slotVal (stepSession s i).1 g = slotVal s g := by
  have hI := hInv.1 f hf
  refine ⟨hI.1, ?_⟩
  intro i g hne
  have hAF : s.awaitingFollowupResponse = false := hI.2.2.2.1
  have hstep : s.currentStep = stepOfField f := hI.2.1
  simp only [stepSession]
  split_ifs with htr
  · rfl
  · simp only [drainStep]
    split_ifs with hwant hcorr hconf
    · cases g <;> rfl
    · exact absurd hcorr (by simp [hI.2.2.2.2.2.1])
    · exfalso
      have hc := hconf.1
      rw [extractPhase_awaitingConfirmation] at hc
      exact absurd hc (by simp [hI.2.2.2.2.1])
    · cases g with
      | zip =>
        show (cascade (extractPhase s i.text)).1.zip = s.zip
        rw [cascade_zip]
        cases f with
        | zip => exact absurd rfl hne
        | name =>
          rw [extractPhase_namestep s i.text hAF hstep, applyName_zip]
        | car =>
          rw [extractPhase_carstep s i.text hAF hstep, applyCar_zip]
        | issue =>
          rw [extractPhase_issuestep s i.text hAF hstep, applyIssue_zip]
      | name =>
        show (cascade (extractPhase s i.text)).1.name = s.name
        rw [cascade_name]
        cases f with
        | name => exact absurd rfl hne
        | zip =>
          rw [extractPhase_zipstep s i.text hAF hstep, applyZip_name]
        | car =>
          rw [extractPhase_carstep s i.text hAF hstep, applyCar_name]
        | issue =>
          rw [extractPhase_issuestep s i.text hAF hstep, applyIssue_name]
      | car =>
        show (cascade (extractPhase s i.text)).1.carMakeModel =
          s.carMakeModel
        rw [cascade_carMakeModel]
        cases f with
        | car => exact absurd rfl hne
        | zip =>
          rw [extractPhase_zipstep s i.text hAF hstep,
            applyZip_carMakeModel]
        | name =>
          rw [extractPhase_namestep s i.text hAF hstep,
            applyName_carMakeModel]
        | issue =>
          rw [extractPhase_issuestep s i.text hAF hstep,
            applyIssue_carMakeModel]
      | issue =>
        show (cascade (extractPhase s i.text)).1.issueText = s.issueText
        rw [cascade_issueText]
        cases f with
        | issue => exact absurd rfl hne
        | zip =>
          rw [extractPhase_zipstep s i.text hAF hstep, applyZip_issueText]
        | name =>
          rw [extractPhase_namestep s i.text hAF hstep,
            applyName_issueText]
        | car =>
          rw [extractPhase_carstep s i.text hAF hstep, applyCar_issueText]

/-- C2 counterexample: after the issue is captured, the follow-up
elaboration is appended to the already non-empty `issueText` although no
correction choice cleared it — `issueText` changes from
"my brakes are grinding" to
"my brakes are grinding. it grinds when braking" while
`awaitingCorrectionChoice` is false and `correctingField` is unset. -/
theorem c2_slot_immutability_counterexample :
    (run initState [⟨"my brakes are grinding", false⟩]).1.issueText =
      "my brakes are grinding" ∧
    (run initState
        [⟨"my brakes are grinding", false⟩]).1.awaitingCorrectionChoice =
      false ∧
    (run initState [⟨"my brakes are grinding", false⟩]).1.correctingField =
      none ∧
    (run initState [⟨"my brakes are grinding", false⟩,
        ⟨"it grinds when braking", false⟩]).1.issueText =
      "my brakes are grinding. it grinds when braking" := by
  refine ⟨?_, ?_, ?_, ?_⟩ <;>
    simp only [run, nomStep2, nomStep3] <;> rfl

/-- C2 (amended): the slots `carMakeModel`, `name` and `zip`, once
non-empty, are changed by an utterance only when a correction choice
clears them (setting `correctingField` to that slot); `issueText`, once
non-empty, additionally admits exactly the follow-up elaboration append
while `awaitingFollowupResponse` is set, and is otherwise only cleared by
a correction choice; every state reachable from the initial state
satisfies the bookkeeping invariant `Inv`; and in any state satisfying
`Inv` with `correctingField` set, the named slot has been cleared to
empty and no other slot is changed by any utterance until it is
refilled. -/
theorem c2_slot_immutability :
    (∀ (s : DState) (i : Inp), s.carMakeModel ≠ "" →
      (stepSession s i).1.carMakeModel = s.carMakeModel ∨
        ((stepSession s i).1.carMakeModel = "" ∧
          s.awaitingCorrectionChoice = true ∧
          (stepSession s i).1.correctingField = some CField.car)) ∧
    (∀ (s : DState) (i : Inp), s.name ≠ "" →
      (stepSession s i).1.name = s.name ∨
        ((stepSession s i).1.name = "" ∧
          s.awaitingCorrectionChoice = true ∧
          (stepSession s i).1.correctingField = some CField.name)) ∧
    (∀ (s : DState) (i : Inp), s.zip ≠ "" →
      (stepSession s i).1.zip = s.zip ∨
        ((stepSession s i).1.zip = "" ∧
          s.awaitingCorrectionChoice = true ∧
          (stepSession s i).1.correctingField = some CField.zip)) ∧
    (∀ (s : DState) (i : Inp), s.issueText ≠ "" →
      (stepSession s i).1.issueText = s.issueText ∨
        ((stepSession s i).1.issueText = "" ∧
          s.awaitingCorrectionChoice = true ∧
          (stepSession s i).1.correctingField = some CField.issue) ∨
        (s.awaitingFollowupResponse = true ∧
          (stepSession s i).1.issueText =
            s.issueText ++ ". " ++ i.text)) ∧
    (∀ inps : List Inp, Inv (run initState inps).1) ∧
    (∀ s : DState, Inv s → ∀ f : CField, s.correctingField = some f →
      slotVal s f = "" ∧
      ∀ (i : Inp) (g : CField), g ≠ f →
        slotVal (stepSession s i).1 g = slotVal s g) :=
  ⟨step_carMM, step_name, step_zip, step_issueText,
   fun inps => inv_run inps initState inv_init,
   fun s h f hf => correcting_only_slot s h f hf⟩

/-- State in which the caller chose to correct the ZIP after declining
the confirmation. -/
def corrState : DState :=
  corrSet { nomSt6 with awaitingConfirmation := false,
                        awaitingCorrectionChoice := true } .zip

/-- Witness for C2: a filled `carMakeModel` survives an unrelated
utterance, and in the reachable correction state for the ZIP the ZIP slot
is empty while an unrelated utterance leaves the name slot untouched. -/
theorem c2_slot_immutability_witness :
    (stepSession nomSt4 ⟨"Tom", false⟩).1.carMakeModel =
      nomSt4.carMakeModel ∧
    slotVal corrState CField.zip = "" ∧
    slotVal (stepSession corrState ⟨"hello", false⟩).1 CField.name =
      slotVal corrState CField.name := by
  have hInv : Inv corrState :=
    inv_corrSet _ _ rfl rfl rfl (by decide)
  refine ⟨?_, ?_, ?_⟩
  · rcases c2_slot_immutability.1 nomSt4 ⟨"Tom", false⟩ (by decide) with
      hcase | hcase
    · exact hcase
    · exact absurd hcase.2.1 (by decide)
  · exact (c2_slot_immutability.2.2.2.2.2 corrState hInv .zip rfl).1
  · exact (c2_slot_immutability.2.2.2.2.2 corrState hInv .zip rfl).2
      ⟨"hello", false⟩ .name (by decide)

/-- Debounce/turn-taking state of the transcript handler (part_006 lines
450-456): the latest pending final, the processing lock, the speaking
flag with the estimated end time of the current bot line, the time the
bot last began speaking (`lastBotQuestionAt`), the last final-transcript
arrival time, and the transferred flag. -/
structure PState where
  pending : Option String
  processing : Bool
  isSpeaking : Bool
  speakUntil : Nat
  lastBotAt : Nat
  lastFinalAt : Nat
  transferred : Bool
  deriving DecidableEq, Repr

/-- Outcome of one final-transcript arrival at the handler. -/
inductive POut where
  | drained
  | held
  | scheduled (fireAt : Nat)
  | ignored
  deriving DecidableEq, Repr

/-- Embedding of the final-transcript path of the Deepgram message
handler (part_006 lines 498-540): overwrite the pending utterance with
the newest final; hold it while a turn is processing or the bot is still
audibly speaking; inside the 800 ms grace window after the bot last began
speaking, arm a timer for the remainder of the window; otherwise drain at
once. -/
def pOnFinal (s : PState) (now : Nat) (t : String) : PState × POut :=
  if s.transferred then (s, .ignored)
  else if trimChars t.data = [] then (s, .ignored)
  else
    let s1 := { s with pending := some ⟨trimChars t.data⟩,
                       lastFinalAt := now }
    if s1.processing then (s1, .held)
    else if s1.isSpeaking ∧ now < s1.speakUntil then (s1, .held)
    else if now - s1.lastBotAt < 800 then
      (s1, .scheduled (now + (800 - (now - s1.lastBotAt))))
    else (s1, .drained)

/-- Consume the pending utterance, as `drainPendingFinal` does on entry
(part_006 lines 577-584). -/
def pDrain (s : PState) : PState × Option String :=
  match s.pending with
  | none => (s, none)
  | some t => ({ s with pending := none }, some t)

/-- The grace-window timer callback (part_006 lines 531-535): drain
unless a turn is processing or the session transferred. -/
def pGraceFire (s : PState) : PState × Option String :=
  if s.processing = false ∧ s.transferred = false ∧ s.pending ≠ none then
    pDrain s
  else (s, none)

/-- The end-of-turn re-dispatch callback (part_006 lines 869-875): drain
unless processing again or still audibly speaking. -/
def pRecheckFire (s : PState) (now : Nat) : PState × Option String :=
  if s.processing = false ∧ ¬(s.isSpeaking = true ∧ now < s.speakUntil)
  then pDrain s
  else (s, none)

/-- Effect of `say` starting a bot line at `now` (part_006 lines
557-561): mark speaking, set the estimated end, record the start time. -/
def pSayStart (s : PState) (now : Nat) (t : String) : PState :=
  { s with isSpeaking := true, speakUntil := now + estimateSpeakMs t,
           lastBotAt := now }

/-- Effect of the speaking-release timer (part_006 lines 572-574). -/
def pSpeakRelease (s : PState) : PState :=
  { s with isSpeaking := false }

/-- Non-final events of the debouncer layer. -/
inductive PEv where
  | graceFire
  | recheckFire (now : Nat)
  | sayStart (now : Nat) (t : String)
  | speakRelease
  deriving DecidableEq, Repr

/-- One non-final event. -/
def pEvStep (s : PState) : PEv → PState × Option String
  | .graceFire => pGraceFire s
  | .recheckFire now => pRecheckFire s now
  | .sayStart now t => (pSayStart s now t, none)
  | .speakRelease => (pSpeakRelease s, none)

/-- Run a sequence of non-final events, collecting the utterances handed
to the turn loop. -/
def runP : PState → List PEv → PState × List String
  | s, [] => (s, [])
  | s, e :: es =>
    let r := pEvStep s e
    let r2 := runP r.1 es
    (r2.1, (match r.2 with | some t => [t] | none => []) ++ r2.2)

theorem pEvStep_facts (s : PState) (e : PEv) :
    ((pEvStep s e).2 = none ∧ (pEvStep s e).1.pending = s.pending) ∨
    (∃ t, (pEvStep s e).2 = some t ∧ s.pending = some t ∧
      (pEvStep s e).1.pending = none) := by
  cases e with
  | graceFire =>
    simp only [pEvStep]
    unfold pGraceFire pDrain
    split_ifs with h
    · cases hp : s.pending with
      | none => exact .inl ⟨by simp [hp], by simp [hp]⟩
      | some t => exact .inr ⟨t, by simp [hp], rfl, by simp [hp]⟩
    · exact .inl ⟨rfl, rfl⟩
  | recheckFire now =>
    simp only [pEvStep]
    unfold pRecheckFire pDrain
    split_ifs with h
    · cases hp : s.pending with
      | none => exact .inl ⟨by simp [hp], by simp [hp]⟩
      | some t => exact .inr ⟨t, by simp [hp], rfl, by simp [hp]⟩
    · exact .inl ⟨rfl, rfl⟩
  | sayStart now t => exact .inl ⟨rfl, rfl⟩
  | speakRelease => exact .inl ⟨rfl, rfl⟩

theorem runP_dispatch (evs : List PEv) :
    ∀ s : PState, (runP s evs).2 = [] ∨
      ∃ b, s.pending = some b ∧ (runP s evs).2 = [b] := by
  induction evs with
  | nil => intro s; exact .inl rfl
  | cons e es ih =>
    intro s
    rcases pEvStep_facts s e with ⟨hn, hp⟩ | ⟨t, ht, hst, hp⟩
    · rcases ih (pEvStep s e).1 with hrest | ⟨b, hb, hrest⟩
      · left
        simp [runP, hn, hrest]
      · right
        exact ⟨b, by rw [← hp]; exact hb, by simp [runP, hn, hrest]⟩
    · rcases ih (pEvStep s e).1 with hrest | ⟨b, hb, hrest⟩
      · right
        exact ⟨t, hst, by simp [runP, ht, hrest]⟩
      · rw [hp] at hb
        simp at hb

theorem pOnFinal_busy (t : String) (tt : Nat) (s0 : PState)
    (h0 : s0.transferred = false) (h1 : trimChars t.data ≠ [])
    (h2 : s0.processing = true ∨
      (s0.isSpeaking = true ∧ tt < s0.speakUntil)) :
    pOnFinal s0 tt t =
      ({ s0 with pending := some ⟨trimChars t.data⟩,
                 lastFinalAt := tt }, POut.held) := by
  unfold pOnFinal
  rw [if_neg (by simp [h0]), if_neg (by simpa using h1)]
  dsimp only
  rcases h2 with h2 | h2
  · rw [if_pos h2]
  · by_cases hp : s0.processing = true
    · rw [if_pos hp]
    · rw [if_neg hp, if_pos h2]

/-- C6: if final utterances A then B arrive while the session actor is
busy (processing a turn, or audibly speaking at both arrival times), both
are merely held, the pending slot ends up holding exactly the trimmed B,
and any later sequence of drain opportunities dispatches at most the
latest pending utterance B — the superseded A is never dispatched. -/
theorem c6_debounce_last_wins (s : PState) (tA tB : Nat) (A B : String)
    (htr : s.transferred = false)
    (hA : trimChars A.data ≠ []) (hB : trimChars B.data ≠ [])
    (hbusy : s.processing = true ∨
      (s.isSpeaking = true ∧ tA < s.speakUntil ∧ tB < s.speakUntil)) :
    (pOnFinal s tA A).2 = POut.held ∧
    (pOnFinal s tA A).1.pending = some ⟨trimChars A.data⟩ ∧
    (pOnFinal (pOnFinal s tA A).1 tB B).2 = POut.held ∧
    (pOnFinal (pOnFinal s tA A).1 tB B).1.pending =
      some ⟨trimChars B.data⟩ ∧
    (∀ evs : List PEv,
      (runP (pOnFinal (pOnFinal s tA A).1 tB B).1 evs).2 = [] ∨
      (runP (pOnFinal (pOnFinal s tA A).1 tB B).1 evs).2 =
        [⟨trimChars B.data⟩]) := by
  have e1 := pOnFinal_busy A tA s htr hA
    (by rcases hbusy with h | h
        · exact .inl h
        · exact .inr ⟨h.1, h.2.1⟩)
  have e2 := pOnFinal_busy B tB
      { s with pending := some ⟨trimChars A.data⟩, lastFinalAt := tA }
      (by simpa using htr) hB
      (by rcases hbusy with h | h
          · exact .inl (by simpa using h)
          · exact .inr ⟨by simpa using h.1, by simpa using h.2.2⟩)
  refine ⟨by rw [e1], by rw [e1], ?_, ?_, ?_⟩
  · rw [e1]
    dsimp only
    rw [e2]
  · rw [e1]
    dsimp only
    rw [e2]
  · intro evs
    rw [e1]
    dsimp only
    rw [e2]
    dsimp only
    rcases runP_dispatch evs
        { s with pending := some ⟨trimChars B.data⟩,
                 lastFinalAt := tB } with h | ⟨b, hb, h⟩
    · exact .inl h
    · have hb2 : some (⟨trimChars B.data⟩ : String) = some b := hb
      rcases Option.some.inj hb2 with rfl
      exact .inr h

/-- Busy state used by the debouncer witnesses: a turn is processing. -/
def pBusy : PState :=
  { pending := none, processing := true, isSpeaking := false,
    speakUntil := 0, lastBotAt := 0, lastFinalAt := 0,
    transferred := false }

/-- Witness for C6 at concrete utterances: while processing, `first
words` then `second words` arrive; only the latter stays pending and a
later drain opportunity can only dispatch it. -/
theorem c6_debounce_last_wins_witness :
    (pOnFinal pBusy 1000 "first words").2 = POut.held ∧
    (pOnFinal pBusy 1000 "first words").1.pending =
      some ⟨trimChars ("first words").data⟩ ∧
    (pOnFinal (pOnFinal pBusy 1000 "first words").1 1100
      "second words").2 = POut.held ∧
    (pOnFinal (pOnFinal pBusy 1000 "first words").1 1100
      "second words").1.pending =
      some ⟨trimChars ("second words").data⟩ ∧
    ((runP (pOnFinal (pOnFinal pBusy 1000 "first words").1 1100
        "second words").1 [PEv.recheckFire 5000]).2 = [] ∨
      (runP (pOnFinal (pOnFinal pBusy 1000 "first words").1 1100
        "second words").1 [PEv.recheckFire 5000]).2 =
        [⟨trimChars ("second words").data⟩]) := by
  have h := c6_debounce_last_wins pBusy 1000 1100 "first words"
    "second words" rfl (by decide) (by decide) (.inl rfl)
  exact ⟨h.1, h.2.1, h.2.2.1, h.2.2.2.1, h.2.2.2.2 [PEv.recheckFire 5000]⟩
/-- Handler state right after the bot starts a short line at time 0:
the estimated end of speech is 1500 ms. -/
def pAfterSay : PState :=
  pSayStart { pending := none, processing := false, isSpeaking := false,
              speakUntil := 0, lastBotAt := 0, lastFinalAt := 0,
              transferred := false } 0 "Hi there."

/-- C7 counterexample: the bot line started at 0 ms has its estimated
end at 1500 ms, yet a final arriving at 1501 ms — one millisecond after
the end of the system utterance — is dispatched immediately.  No 800 ms
gap after the end of the most recent system utterance is enforced; the
code measures the grace window from `lastBotQuestionAt`, which `say` sets
when the bot *begins* speaking. -/
theorem c7_grace_period_counterexample :
    pAfterSay.speakUntil = 1500 ∧ pAfterSay.lastBotAt = 0 ∧
    (pOnFinal pAfterSay 1501 "okay then").2 = POut.drained ∧
    1501 < pAfterSay.speakUntil + 800 := by decide

/-- C7 (amended): the transcript handler enforces the ≈800 ms grace
window measured from the moment the bot last began speaking
(`lastBotQuestionAt`): an immediate dispatch can only happen at least
800 ms after that start, and a final arriving inside the window is not
dropped — the trimmed text is retained as the pending utterance and a
drain is scheduled for exactly `lastBotQuestionAt + 800`. -/
theorem c7_grace_period :
    (∀ (s : PState) (now : Nat) (t : String),
      (pOnFinal s now t).2 = POut.drained → s.lastBotAt + 800 ≤ now) ∧
    (∀ (s : PState) (now : Nat) (t : String),
      s.transferred = false → trimChars t.data ≠ [] →
      s.processing = false →
      ¬(s.isSpeaking = true ∧ now < s.speakUntil) →
      s.lastBotAt ≤ now → now < s.lastBotAt + 800 →
      (pOnFinal s now t).2 = POut.scheduled (s.lastBotAt + 800) ∧
      (pOnFinal s now t).1.pending = some ⟨trimChars t.data⟩) := by
  constructor
  · intro s now t h
    unfold pOnFinal at h
    dsimp only at h
    split_ifs at h with h1 h2 h3 h4 h5 <;> first | omega | simp at h
  · intro s now t h1 h2 h3 h4 h5 h6
    unfold pOnFinal
    rw [if_neg (by simp [h1]), if_neg (by simpa using h2)]
    dsimp only
    rw [if_neg (by simp [h3]), if_neg h4, if_pos (by omega)]
    refine ⟨?_, rfl⟩
    have harith : now + (800 - (now - s.lastBotAt)) = s.lastBotAt + 800 :=
      by omega
    rw [harith]

/-- Idle handler state whose bot line began at 600 ms. -/
def pIdle600 : PState :=
  { pending := none, processing := false, isSpeaking := false,
    speakUntil := 0, lastBotAt := 600, lastFinalAt := 0,
    transferred := false }

/-- Witness for C7: a final at 1000 ms, 400 ms after the bot began
speaking at 600 ms (speech already released), is scheduled for exactly
1400 ms with its text retained, and a later final at 2000 ms that is
dispatched immediately indeed arrives at least 800 ms after the start. -/
theorem c7_grace_period_witness :
    (pOnFinal pIdle600 1000 "hello there").2 = POut.scheduled 1400 ∧
    (pOnFinal pIdle600 1000 "hello there").1.pending =
      some ⟨trimChars ("hello there").data⟩ ∧
    pIdle600.lastBotAt + 800 ≤ 2000 := by
  have h2 := c7_grace_period.2 pIdle600 1000 "hello there" rfl (by decide)
    rfl (by decide) (by decide) (by decide)
  have h1 := c7_grace_period.1 pIdle600 2000 "go ahead" (by decide)
  exact ⟨h2.1, h2.2, h1⟩

/-- Per-call state of the `server.js` variant's transcript pipeline
(src/server.js lines 1095-1105): the transferred flag, the speaking lock,
the pending final text (empty string when none, as in the source), and
the duplicate-suppression memory. -/
structure SState where
  transferred : Bool
  isSpeaking : Bool
  pendingFinalText : String
  lastFinalText : String
  lastFinalAt : Nat
  deriving DecidableEq, Repr

/-- Observable actions of the `server.js` pipeline: the out-of-band
`clear` message to Twilio and the start of turn processing. -/
inductive SvAct where
  | clearAudio
  | processTurn (t : String)
  deriving DecidableEq, Repr

/-- Embedding of the `server.js` Deepgram message handler
(src/server.js lines 1265-1302): an interim transcript while speaking
clears the outbound audio and drops the speaking flag; interims are
otherwise ignored; a final that duplicates the previous one within
1500 ms is discarded; any other final becomes the pending text and
re-arms the 450 ms debounce timer (returned as its fire time). -/
def svOnMessage (s : SState) (tr : String) (fin : Bool) (now : Nat) :
    SState × List SvAct × Option Nat :=
  if s.transferred then (s, [], none)
  else if trimChars tr.data = [] then (s, [], none)
  else
    let s1 := if fin = false ∧ s.isSpeaking = true then
        { s with isSpeaking := false } else s
    let acts : List SvAct := if fin = false ∧ s.isSpeaking = true then
        [SvAct.clearAudio] else []
    if fin = false then (s1, acts, none)
    else
      if lowerL (trimChars tr.data) ≠ [] ∧
          lowerL (trimChars tr.data) = s1.lastFinalText.data ∧
          now - s1.lastFinalAt < 1500 then
        (s1, acts, none)
      else
        ({ s1 with lastFinalText := ⟨lowerL (trimChars tr.data)⟩,
                   lastFinalAt := now,
                   pendingFinalText := ⟨trimChars tr.data⟩ },
         acts, some (now + 450))

/-- Embedding of the debounce-timer callback (src/server.js lines
1287-1301): take the pending text; if the bot is speaking, re-queue it
and do nothing; otherwise hand it to `processAiResponse`. -/
def svDebounceFire (s : SState) : SState × List SvAct :=
  let textToProcess := s.pendingFinalText
  let s1 := { s with pendingFinalText := "" }
  if textToProcess = "" then (s1, [])
  else if s1.isSpeaking = true then
    ({ s1 with pendingFinalText := textToProcess }, [])
  else (s1, [SvAct.processTurn textToProcess])

/-- Embedding of the speaking-release timeout of
`speakOverStreamWithLock` (src/server.js lines 1167-1176): drop the
speaking flag and process a queued pending text if one exists. -/
def svSpeakEnd (s : SState) : SState × List SvAct :=
  if s.pendingFinalText ≠ "" ∧ trimChars s.pendingFinalText.data ≠ [] then
    ({ s with isSpeaking := false, pendingFinalText := "" },
     [SvAct.processTurn s.pendingFinalText])
  else ({ s with isSpeaking := false }, [])

/-- Speaking `server.js` session with no pending text. -/
def svSpeaking : SState :=
  { transferred := false, isSpeaking := true, pendingFinalText := "",
    lastFinalText := "", lastFinalAt := 0 }

/-- C5 counterexample: a *final* utterance arriving while
`isSpeaking = true` triggers no `clearPlayback` at all — it is merely
queued — and at the debounce deadline the stale speaking flag blocks the
turn: the pending text is re-queued and nothing is processed.  The
claimed clear-before-extraction and non-blocking behaviour do not hold
for finals; only interim transcripts clear playback. -/
theorem c5_barge_in_counterexample :
    (svOnMessage svSpeaking "hello" true 2000).2.1 = [] ∧
    (svOnMessage svSpeaking "hello" true 2000).1.isSpeaking = true ∧
    (svOnMessage svSpeaking "hello" true 2000).1.pendingFinalText =
      "hello" ∧
    (svDebounceFire (svOnMessage svSpeaking "hello" true 2000).1).2 =
      [] ∧
    (svDebounceFire
        (svOnMessage svSpeaking "hello" true 2000).1).1.pendingFinalText =
      "hello" := by decide

/-- C5 (amended): barge-in cancellation is driven by *interim*
transcripts: an interim arriving while `isSpeaking` is true sends
`clearPlayback` and clears the flag at once (so a subsequent final is
processed unblocked); a final arriving while speaking is queued by the
debounce callback rather than processed, and the queued text is handed
to the turn loop, without a further `clearPlayback`, when the speaking
lock is released at the end of the bot's utterance. -/
theorem c5_barge_in :
    (∀ (s : SState) (t : String) (now : Nat),
      s.transferred = false → trimChars t.data ≠ [] →
      s.isSpeaking = true →
      svOnMessage s t false now =
        ({ s with isSpeaking := false }, [SvAct.clearAudio], none)) ∧
    (∀ s : SState, s.isSpeaking = true →
      (svDebounceFire s).2 = [] ∧
      (svDebounceFire s).1.pendingFinalText = s.pendingFinalText) ∧
    (∀ s : SState, s.pendingFinalText ≠ "" →
      trimChars s.pendingFinalText.data ≠ [] →
      svSpeakEnd s =
        ({ s with isSpeaking := false, pendingFinalText := "" },
         [SvAct.processTurn s.pendingFinalText])) := by
  refine ⟨?_, ?_, ?_⟩
  · intro s t now h1 h2 h3
    unfold svOnMessage
    rw [if_neg (by simp [h1]), if_neg (by simpa using h2)]
    dsimp only
    rw [if_pos (show (false = false) ∧ s.isSpeaking = true from ⟨rfl, h3⟩)]
    rw [if_pos (show (false = false) from rfl)]
    rw [if_pos (show (false = false) ∧ s.isSpeaking = true from ⟨rfl, h3⟩)]
  · intro s h
    unfold svDebounceFire
    dsimp only
    split_ifs with g1
    · exact ⟨rfl, by simp [g1]⟩
    · exact ⟨rfl, rfl⟩
  · intro s h1 h2
    unfold svSpeakEnd
    rw [if_pos ⟨h1, h2⟩]

/-- Witness for C5 at concrete values: an interim while speaking clears
playback and drops the flag; a speaking session holds its queued text at
the debounce deadline; releasing the lock processes the queued text. -/
theorem c5_barge_in_witness :
    svOnMessage svSpeaking "uh my car" false 1000 =
      ({ svSpeaking with isSpeaking := false }, [SvAct.clearAudio],
       none) ∧
    (svDebounceFire { svSpeaking with pendingFinalText := "hello" }).2 =
      [] ∧
    svSpeakEnd { svSpeaking with pendingFinalText := "hello" } =
      ({ svSpeaking with isSpeaking := false, pendingFinalText := "" },
       [SvAct.processTurn "hello"]) := by
  refine ⟨c5_barge_in.1 svSpeaking "uh my car" 1000 rfl (by decide) rfl,
    (c5_barge_in.2.1 { svSpeaking with pendingFinalText := "hello" }
      rfl).1, ?_⟩
  exact c5_barge_in.2.2 { svSpeaking with pendingFinalText := "hello" }
    (by decide) (by decide)

/-- C10: `normalizePhone` is idempotent; an input with exactly 10 digit
characters maps to those digits with a leading `1` prepended; an input
that is itself 11 digits beginning with `1` is left unchanged; otherwise
the result is exactly the digit characters of the input (in particular
the empty string when there are none). -/
theorem c10_normalizePhone (s : String) :
    normalizePhone (normalizePhone s) = normalizePhone s ∧
    ((digitsOf s.data).length = 10 →
      normalizePhone s = ⟨'1' :: digitsOf s.data⟩) ∧
    (s.data.length = 11 → (∀ c ∈ s.data, c.isDigit) →
      s.data.head? = some '1' → normalizePhone s = s) ∧
    ((digitsOf s.data).length ≠ 10 →
      ¬((digitsOf s.data).length = 11 ∧ (digitsOf s.data).head? = some '1') →
      normalizePhone s = ⟨digitsOf s.data⟩) := by
  obtain ⟨l⟩ := s
  refine ⟨?_, ?_, ?_, ?_⟩
  · show String.mk (normalizePhoneL (normalizePhoneL l)) = _
    rw [normalizePhoneL_idem]
    rfl
  · intro h10
    show String.mk (normalizePhoneL l) = _
    unfold normalizePhoneL
    rw [if_neg (by intro he; rw [he] at h10; simp at h10), if_pos h10]
  · intro hlen hdig hhead
    have hd : digitsOf l = l := digitsOf_all l hdig
    show String.mk (normalizePhoneL l) = _
    unfold normalizePhoneL
    rw [hd, if_neg (by intro he; rw [he] at hlen; simp at hlen),
        if_neg (by rw [hlen]; decide), if_pos ⟨hlen, hhead⟩]
  · intro h10 h11
    show String.mk (normalizePhoneL l) = _
    unfold normalizePhoneL
    by_cases h0 : digitsOf l = []
    · rw [if_pos h0, h0]
    · rw [if_neg h0, if_neg h10, if_neg h11]

/-- Witness for C10 at concrete phone numbers. -/
theorem c10_normalizePhone_witness :
    normalizePhone "(617) 555-0123" = "16175550123" ∧
    normalizePhone "16175550123" = "16175550123" ∧
    normalizePhone (normalizePhone "(617) 555-0123") =
      normalizePhone "(617) 555-0123" := by
  refine ⟨?_, ?_, (c10_normalizePhone "(617) 555-0123").1⟩
  · have h := (c10_normalizePhone "(617) 555-0123").2.1 (by decide)
    rw [h]
    decide
  · exact (c10_normalizePhone "16175550123").2.2.1 (by decide) (by decide)
      (by decide)

end MM
